import Mathlib

/-!
Verification development for the channel-resilience core (connection manager,
backoff calculator, outbound queue) and the turn-completion protocol of the
interview-coach repository.  The TypeScript source is shallowly embedded:
numbers that the source manipulates as floating-point milliseconds are
modelled as rationals (the values occurring here are exact in both), `Math.round`
as the JS half-up rounding on rationals, the connection manager's mutable
instance as an explicit state record with a step function over externally
supplied events, and timer scheduling as a pending flag whose firing is an
explicit event (the computed backoff delay only determines the real-time moment
of firing, which the explicit event list abstracts; the delay value itself is
verified separately through `calculateBackoffDelay`).
-/

/-- JS `Math.max` on integers, written out so that it evaluates by kernel
reduction. -/
def mathMax (a b : ℤ) : ℤ := if a ≤ b then b else a

/-- JS `Math.min` on rationals, written out so that it evaluates by kernel
reduction. -/
def mathMin (a b : ℚ) : ℚ := if a ≤ b then a else b

/-- JS `Math.round`: rounds half-way cases toward positive infinity,
`Math.round x = ⌊x + 1/2⌋`. -/
def jsRound (q : ℚ) : ℤ := Int.floor (q + mkRat 1 2)

/-- Options record of the backoff calculator (`BackoffOptions` in
`src/lib/types.ts`).  The injected random source `random : () => number` is
modelled by the single value it returns for the call the calculator makes. -/
structure BackoffOptions where
  baseDelayMs : ℚ
  maxDelayMs : ℚ
  jitterRatio : ℚ
  random : ℚ

/-- Embedding of `calculateBackoffDelay` (src/lib/types.ts:63-69):
`exponent = Math.max(0, attempt - 1)` (natural subtraction on ℕ),
`raw = baseDelayMs * 2 ** exponent`, `capped = Math.min(raw, maxDelayMs)`,
`jitterOffset = capped * jitterRatio * (random() * 2 - 1)`, and the result is
`Math.max(250, Math.round(capped + jitterOffset))`. -/
def calculateBackoffDelay (attempt : ℕ) (options : BackoffOptions) : ℤ :=
  let exponent : ℕ := attempt - 1
  let raw : ℚ := options.baseDelayMs * 2 ^ exponent
  let capped : ℚ := mathMin raw options.maxDelayMs
  let jitterOffset : ℚ := capped * options.jitterRatio * (options.random * 2 - 1)
  mathMax 250 (jsRound (capped + jitterOffset))

/-- The five connection states (`ConnectionState` in src/lib/types.ts). -/
inductive ConnectionState where
  | connecting
  | connected
  | reconnecting
  | offline
  | error
  deriving DecidableEq, Repr

/-- Static configuration of a `ConnectionManager M R` sending messages of type
`M` and receiving messages of type `R` (`ConnectionManagerOptions` plus the
readonly fields of the class, src/lib/types.ts:38-118).  `parse` may throw
(`Except.error`), return `null` (`Except.ok none`) or return a message;
`falsy` is JS truthiness on `M` (the flush loop skips falsy queue entries via
`if (!next) continue`); `createHeartbeatMessage` is the optional heartbeat
factory.  The delay fields `baseDelayMs`/`maxDelayMs`/`jitterRatio` only feed
`calculateBackoffDelay`, whose output sets the real-time firing moment of the
reconnect timer; timer firing is an explicit event here, so those fields are
not duplicated in this record. -/
structure ManagerConfig (M R : Type) where
  maxAttempts : ℕ
  maxQueueSize : ℕ
  deadConnectionMs : ℤ
  serialize : M → String
  parse : String → Except Unit (Option R)
  createHeartbeatMessage : Option (Unit → Option M)
  falsy : M → Bool

/-- Mutable instance state of the `ConnectionManager` class
(src/lib/types.ts:91-99).  `socket = none` models `this.socket === null`,
`socket = some false` a created socket whose `readyState` is not yet `OPEN`,
`socket = some true` an open socket (`readyState === SOCKET_OPEN`).  The two
timers are modelled by pending flags. -/
structure ManagerState (M : Type) where
  socket : Option Bool
  state : ConnectionState
  attempt : ℕ
  queue : List M
  reconnectTimer : Bool
  heartbeatTimer : Bool
  manuallyStopped : Bool
  online : Bool
  lastMessageAt : ℤ
  deriving DecidableEq, Repr

/-- Field initializers of the class (src/lib/types.ts:91-99). -/
def initialState {M : Type} : ManagerState M :=
  { socket := none
    state := .connecting
    attempt := 0
    queue := []
    reconnectTimer := false
    heartbeatTimer := false
    manuallyStopped := false
    online := true
    lastMessageAt := 0 }

/-- Observable effects of a manager operation, in order of occurrence: calls to
the `onStateChange`, `onError`, `onOpen` and `onMessage` observers, and text
frames handed to `socket.send`. -/
inductive Out (R : Type) where
  | stateChange (s : ConnectionState)
  | errorMsg (msg : String)
  | opened
  | message (r : R)
  | frame (data : String)
  deriving DecidableEq, Repr

namespace ConnectionManager

variable {M R : Type}

/-- Embedding of `transition` (src/lib/types.ts:186-190): it assigns and notifies only when the
new state differs from the current one. -/
def transition (st : ManagerState M) (s : ConnectionState) :
    ManagerState M × List (Out R) :=
  if st.state = s then (st, [])
  else ({ st with state := s }, [Out.stateChange s])

/-- Embedding of `safeCloseSocket` (src/lib/types.ts:192-205): detaches the handlers and
closes the socket; afterwards no event of the old socket reaches the manager,
which the step function models by guarding every socket callback on the
current `socket` field. -/
def safeCloseSocket (st : ManagerState M) : ManagerState M :=
  { st with socket := none }

/-- Embedding of `clearReconnectTimer` (src/lib/types.ts:207-212). -/
def clearReconnectTimer (st : ManagerState M) : ManagerState M :=
  { st with reconnectTimer := false }

/-- Embedding of `clearHeartbeatTimer` (src/lib/types.ts:214-219). -/
def clearHeartbeatTimer (st : ManagerState M) : ManagerState M :=
  { st with heartbeatTimer := false }

/-- Embedding of `scheduleReconnect` (src/lib/types.ts:312-338): no-op when manually
stopped; `offline` when not online; otherwise increment the attempt counter,
and either go terminal (`error` plus an error report, no timer) when the
counter exceeds `maxAttempts`, or transition to `reconnecting` and arm the
one-shot reconnect timer (its delay comes from `calculateBackoffDelay`; firing
is the explicit `reconnectFire` event). -/
def scheduleReconnect (cfg : ManagerConfig M R) (st : ManagerState M)
    (reason : String) : ManagerState M × List (Out R) :=
  if st.manuallyStopped then (st, [])
  else if st.online = false then transition st .offline
  else
    let st1 : ManagerState M := { st with attempt := st.attempt + 1 }
    if cfg.maxAttempts < st1.attempt then
      let p := transition (R := R) st1 .error
      (p.1, p.2 ++ [Out.errorMsg (reason ++ (" Max retries reached."))])
    else
      let p := transition (R := R) st1 .reconnecting
      ({ (clearReconnectTimer p.1) with reconnectTimer := true }, p.2)

/-- Embedding of `sendNow` (src/lib/types.ts:242-250): returns silently unless the socket is
open; then serializes and transmits.  `ok` tells whether the underlying
`socket.send` succeeds; a synchronous throw re-enqueues the message at the back
of the queue and schedules a reconnect. -/
def sendNow (cfg : ManagerConfig M R) (st : ManagerState M) (m : M)
    (ok : Bool) : ManagerState M × List (Out R) :=
  if st.socket = some true then
    if ok then (st, [Out.frame (cfg.serialize m)])
    else scheduleReconnect cfg { st with queue := st.queue ++ [m] }
      ("Send failed. Reconnecting...")
  else (st, [])

/-- Body of the `while` loop of `flushQueue` (src/lib/types.ts:254-258):
`shift` the head, skip it when falsy, otherwise `sendNow` it.  The JS loop
runs until the queue is empty (and diverges when every send keeps failing on a
still-open socket); `fuel` bounds the number of modelled iterations and
`oracle` lists the outcomes of the successive `socket.send` calls (missing
entries default to success). -/
def flushLoop (cfg : ManagerConfig M R) :
    ℕ → ManagerState M → List Bool → ManagerState M × List (Out R)
  | 0, st, _ => (st, [])
  | fuel + 1, st, oracle =>
    match st.queue with
    | [] => (st, [])
    | next :: rest =>
      let st1 : ManagerState M := { st with queue := rest }
      if cfg.falsy next then flushLoop cfg fuel st1 oracle
      else
        let p := sendNow cfg st1 next (oracle.headD true)
        let q := flushLoop cfg fuel p.1 oracle.tail
        (q.1, p.2 ++ q.2)

/-- Embedding of `flushQueue` (src/lib/types.ts:252-259): entry guard on an open socket,
then the drain loop. -/
def flushQueue (cfg : ManagerConfig M R) (st : ManagerState M) (fuel : ℕ)
    (oracle : List Bool) : ManagerState M × List (Out R) :=
  if st.socket = some true then flushLoop cfg fuel st oracle else (st, [])

/-- Embedding of `startHeartbeat` (src/lib/types.ts:221-223, timer installation only):
clears any previous heartbeat interval and arms a new one. -/
def startHeartbeat (st : ManagerState M) : ManagerState M :=
  { (clearHeartbeatTimer st) with heartbeatTimer := true }

/-- The `socket.onopen` handler (src/lib/types.ts:275-282), entered when the
socket's `readyState` has become `OPEN`: reset the attempt counter, stamp the
liveness clock with `Date.now()` (`now`), transition to `connected`, start the
heartbeat, invoke the `onOpen` observer, flush the queue. -/
def handleOpen (cfg : ManagerConfig M R) (st : ManagerState M) (now : ℤ)
    (fuel : ℕ) (oracle : List Bool) : ManagerState M × List (Out R) :=
  let st1 : ManagerState M :=
    { st with socket := some true, attempt := 0, lastMessageAt := now }
  let p := transition (R := R) st1 .connected
  let st2 := startHeartbeat p.1
  let q := flushQueue cfg st2 fuel oracle
  (q.1, p.2 ++ Out.opened :: q.2)

/-- The `socket.onmessage` handler (src/lib/types.ts:284-295): stamp the
liveness clock; ignore empty frames; a `parse` throw reports an error, a
`null` parse is dropped, a message goes to the `onMessage` observer. -/
def handleMessage (cfg : ManagerConfig M R) (st : ManagerState M)
    (raw : String) (now : ℤ) : ManagerState M × List (Out R) :=
  let st1 : ManagerState M := { st with lastMessageAt := now }
  if raw = "" then (st1, [])
  else
    match cfg.parse raw with
    | Except.error _ => (st1, [Out.errorMsg ("Invalid message from voice server.")])
    | Except.ok none => (st1, [])
    | Except.ok (some r) => (st1, [Out.message r])

/-- The `socket.onerror` handler (src/lib/types.ts:297-299). -/
def handleError (st : ManagerState M) : ManagerState M × List (Out R) :=
  (st, [Out.errorMsg ("WebSocket connection error.")])

/-- The `socket.onclose` handler (src/lib/types.ts:301-306): clear the
heartbeat, drop the socket, and unless manually stopped schedule a
reconnect. -/
def handleClose (cfg : ManagerConfig M R) (st : ManagerState M) :
    ManagerState M × List (Out R) :=
  let st1 : ManagerState M :=
    { (clearHeartbeatTimer st) with socket := none }
  if st1.manuallyStopped then (st1, [])
  else scheduleReconnect cfg st1 ("Connection closed.")

/-- One tick of the heartbeat interval (src/lib/types.ts:223-239): nothing
unless the socket is open; a liveness age beyond `deadConnectionMs` force
closes and schedules a reconnect; otherwise the optional heartbeat factory is
consulted and a non-null heartbeat is sent through `sendNow` (whose physical
outcome is `ok`). -/
def heartbeatTick (cfg : ManagerConfig M R) (st : ManagerState M) (now : ℤ)
    (ok : Bool) : ManagerState M × List (Out R) :=
  if st.socket = some true then
    if cfg.deadConnectionMs < now - st.lastMessageAt then
      scheduleReconnect cfg (safeCloseSocket st) ("Connection timed out.")
    else
      match cfg.createHeartbeatMessage with
      | none => (st, [])
      | some f =>
        match f () with
        | none => (st, [])
        | some hb => sendNow cfg st hb ok
  else (st, [])

/-- Embedding of `openSocket` (src/lib/types.ts:261-310): offline guard, clear the pending
reconnect timer, close any previous socket, transition to
`reconnecting`/`connecting`, then create the socket (`createOk = false` models
a synchronous `createSocket` throw, handled by scheduling a reconnect). -/
def openSocket (cfg : ManagerConfig M R) (st : ManagerState M)
    (reconnecting : Bool) (createOk : Bool) : ManagerState M × List (Out R) :=
  if st.online = false then transition st .offline
  else
    let st1 := safeCloseSocket (clearReconnectTimer st)
    let p := transition (R := R) st1
      (if reconnecting then .reconnecting else .connecting)
    if createOk then ({ p.1 with socket := some false }, p.2)
    else
      let q := scheduleReconnect cfg p.1 ("Unable to open WebSocket.")
      (q.1, p.2 ++ q.2)

/-- Embedding of `start` (src/lib/types.ts:120-131). -/
def start (cfg : ManagerConfig M R) (st : ManagerState M) (createOk : Bool) :
    ManagerState M × List (Out R) :=
  let st1 : ManagerState M := { st with manuallyStopped := false }
  if st1.online = false then transition st1 .offline
  else if st1.socket = some true then transition st1 .connected
  else openSocket cfg st1 false createOk

/-- Embedding of `stop` (src/lib/types.ts:133-139). -/
def stop (st : ManagerState M) : ManagerState M × List (Out R) :=
  let st1 : ManagerState M := { st with manuallyStopped := true }
  let st2 := safeCloseSocket (clearHeartbeatTimer (clearReconnectTimer st1))
  transition st2 (if st2.online then .error else .offline)

/-- Embedding of `retryNow` (src/lib/types.ts:141-149). -/
def retryNow (cfg : ManagerConfig M R) (st : ManagerState M)
    (createOk : Bool) : ManagerState M × List (Out R) :=
  if st.online = false then transition st .offline
  else openSocket cfg (safeCloseSocket (clearReconnectTimer st)) true createOk

/-- Embedding of `setOnlineStatus` (src/lib/types.ts:151-164). -/
def setOnlineStatus (cfg : ManagerConfig M R) (st : ManagerState M)
    (online : Bool) (createOk : Bool) : ManagerState M × List (Out R) :=
  let st1 : ManagerState M := { st with online := online }
  if online = false then
    transition (safeCloseSocket (clearHeartbeatTimer (clearReconnectTimer st1)))
      .offline
  else if st1.state = .offline ∨ st1.state = .error then
    retryNow cfg st1 createOk
  else (st1, [])

/-- Bounded enqueue of `send` when the socket is not open
(src/lib/types.ts:172-175): push, then `splice(0, length - maxQueueSize)`
drops the oldest entries beyond the capacity. -/
def enqueueCapped (maxQueueSize : ℕ) (queue : List M) (m : M) : List M :=
  let q1 := queue ++ [m]
  if maxQueueSize < q1.length then q1.drop (q1.length - maxQueueSize) else q1

/-- Embedding of `send` (src/lib/types.ts:166-176): immediate `sendNow` on an open socket,
otherwise capacity-bounded enqueue. -/
def send (cfg : ManagerConfig M R) (st : ManagerState M) (m : M) (ok : Bool) :
    ManagerState M × List (Out R) :=
  if st.socket = some true then sendNow cfg st m ok
  else ({ st with queue := enqueueCapped cfg.maxQueueSize st.queue m }, [])

/-- External stimulus to one manager instance: a public API call or an
environment callback.  Environment data that the source reads while handling
the stimulus rides along: `Date.now()` readings (`now`), whether the
synchronous `createSocket`/`socket.send` calls succeed (`createOk`/`ok`, with
`oracle` listing successive send outcomes during a queue flush and `fuel`
bounding the modelled flush iterations). -/
inductive Input (M : Type) where
  | start (createOk : Bool)
  | stop
  | retryNow (createOk : Bool)
  | setOnline (online : Bool) (createOk : Bool)
  | send (m : M) (ok : Bool)
  | socketOpened (now : ℤ) (fuel : ℕ) (oracle : List Bool)
  | socketMessage (raw : String) (now : ℤ)
  | socketError
  | socketClosed
  | heartbeatTick (now : ℤ) (ok : Bool)
  | reconnectFire (createOk : Bool)
  deriving DecidableEq, Repr

/-- Dispatch one stimulus.  Socket callbacks are guarded on the current socket
(`safeCloseSocket` detaches handlers, so events of discarded sockets never
reach the manager): `onopen` fires on a created, not-yet-open socket,
`onmessage` on an open one, `onerror`/`onclose` on any live socket.  The two
timer callbacks fire only while their timer is pending; the one-shot reconnect
timer is consumed by firing. -/
def step (cfg : ManagerConfig M R) (st : ManagerState M) :
    Input M → ManagerState M × List (Out R)
  | .start createOk => start cfg st createOk
  | .stop => stop st
  | .retryNow createOk => retryNow cfg st createOk
  | .setOnline online createOk => setOnlineStatus cfg st online createOk
  | .send m ok => send cfg st m ok
  | .socketOpened now fuel oracle =>
    if st.socket = some false then handleOpen cfg st now fuel oracle
    else (st, [])
  | .socketMessage raw now =>
    if st.socket = some true then handleMessage cfg st raw now else (st, [])
  | .socketError => if st.socket.isSome then handleError st else (st, [])
  | .socketClosed => if st.socket.isSome then handleClose cfg st else (st, [])
  | .heartbeatTick now ok =>
    if st.heartbeatTimer then heartbeatTick cfg st now ok else (st, [])
  | .reconnectFire createOk =>
    if st.reconnectTimer then
      openSocket cfg { st with reconnectTimer := false } true createOk
    else (st, [])

/-- Run a sequence of stimuli from a state, accumulating the event trace. -/
def run (cfg : ManagerConfig M R) (st : ManagerState M) :
    List (Input M) → ManagerState M × List (Out R)
  | [] => (st, [])
  | i :: rest =>
    let p := step cfg st i
    let q := run cfg p.1 rest
    (q.1, p.2 ++ q.2)

end ConnectionManager

/-- The `state` arguments of the `onStateChange` calls in a trace, in order. -/
def stateChanges {R : Type} (tr : List (Out R)) : List ConnectionState :=
  tr.filterMap fun o =>
    match o with
    | .stateChange s => some s
    | _ => none

/-- The serialized frames handed to `socket.send` in a trace, in order. -/
def sentFrames {R : Type} (tr : List (Out R)) : List String :=
  tr.filterMap fun o =>
    match o with
    | .frame data => some data
    | _ => none

/-- Whether an output event is an `onError` observer call. -/
def isErrorOut {R : Type} : Out R → Bool
  | .errorMsg _ => true
  | _ => false

/-- Whether a stimulus is an environment callback (socket event or timer
firing) rather than a public API call; used to state that a quiescent manager
stays silent without caller intervention. -/
def isCallbackInput {M : Type} : ConnectionManager.Input M → Bool
  | .socketOpened _ _ _ => true
  | .socketMessage _ _ => true
  | .socketError => true
  | .socketClosed => true
  | .heartbeatTick _ _ => true
  | .reconnectFire _ => true
  | _ => false

/-- Last `maxQueueSize` elements; the retained suffix after the `splice`
eviction of the outbound queue. -/
def takeLast {α : Type} (n : ℕ) (l : List α) : List α :=
  l.drop (l.length - n)

/-- The character class of the JS regex `\s` (and of `String.prototype.trim`):
ASCII whitespace, NBSP, the Unicode space separators, line/paragraph
separators, narrow no-break space, medium mathematical space, ideographic
space and the BOM. -/
def isJsWs (c : Char) : Bool :=
  c.toNat = 9 || c.toNat = 10 || c.toNat = 11 || c.toNat = 12 ||
    c.toNat = 13 || c.toNat = 32 || c.toNat = 160 || c.toNat = 5760 ||
    (8192 ≤ c.toNat && c.toNat ≤ 8202) || c.toNat = 8232 ||
    c.toNat = 8233 || c.toNat = 8239 || c.toNat = 8287 ||
    c.toNat = 12288 || c.toNat = 65279

/-- The punctuation class `[.,!?;:]` of `normalizeGeneratedText`
(src/unnamed/part_006:191). -/
def isNormPunct (c : Char) : Bool :=
  c == '.' || c == ',' || c == '!' || c == '?' || c == ';' || c == ':'

/-- The terminal punctuation class `[.!?]` of `hasSentenceEnding`
(src/unnamed/part_006:200). -/
def isTerminalPunct (c : Char) : Bool :=
  c == '.' || c == '!' || c == '?'

/-- The closing quote/bracket class `["')\]]` of `hasSentenceEnding`. -/
def isCloser (c : Char) : Bool :=
  c == '"' || c == Char.ofNat 39 || c == ')' || c == ']'

/-- Scanner form of the global replace `.replace(/\s+/g, " ")`: `prevWs`
records whether the scanner is inside a whitespace run whose single output
space has already been emitted. -/
def collapseWsAux (prevWs : Bool) : List Char → List Char
  | [] => []
  | c :: rest =>
    if isJsWs c then
      if prevWs then collapseWsAux true rest
      else ' ' :: collapseWsAux true rest
    else c :: collapseWsAux false rest

/-- The global replace `.replace(/\s+/g, " ")`: every maximal whitespace run
becomes one space. -/
def collapseWs (l : List Char) : List Char := collapseWsAux false l

/-- Scanner form of the global replace `.replace(/\s+([.,!?;:])/g, "$1")`:
`pending` holds the whitespace run read so far but not yet emitted.  A
punctuation character discards the pending run (the match is replaced by its
`$1` group and scanning resumes after it, as the JS regex engine does); any
other character flushes the pending run unchanged; the end of input flushes
it as well. -/
def stripWsPunctAux (pending : List Char) : List Char → List Char
  | [] => pending
  | c :: rest =>
    if isJsWs c then stripWsPunctAux (pending ++ [c]) rest
    else if isNormPunct c then c :: stripWsPunctAux [] rest
    else pending ++ c :: stripWsPunctAux [] rest

/-- The global replace `.replace(/\s+([.,!?;:])/g, "$1")`: a maximal
whitespace run immediately followed by one of the punctuation characters is
deleted; all other text is kept. -/
def stripWsPunct (l : List Char) : List Char := stripWsPunctAux [] l

/-- Embedding of `String.prototype.trim`: strip leading and trailing whitespace. -/
def trimChars (l : List Char) : List Char :=
  ((l.dropWhile isJsWs).reverse.dropWhile isJsWs).reverse

/-- Embedding of `normalizeGeneratedText` (src/unnamed/part_006:187-193): join the
fragments, collapse whitespace runs, delete whitespace before `[.,!?;:]`,
trim. -/
def normalizeGeneratedText (parts : List String) : String :=
  String.mk (trimChars (stripWsPunct (collapseWs (String.join parts).toList)))

/-- Embedding of `hasSentenceEnding` (src/unnamed/part_006:199-201): the test
`/[.!?]["')\]]?\s*$/` — after ignoring trailing whitespace the text ends in
terminal punctuation, optionally followed by one closing quote/bracket. -/
def hasSentenceEnding (text : String) : Bool :=
  match text.toList.reverse.dropWhile isJsWs with
  | [] => false
  | c :: rest =>
    if isCloser c then
      match rest with
      | [] => false
      | d :: _ => isTerminalPunct d
    else isTerminalPunct c

/-- Soft settle threshold `STREAM_SETTLE_MS` (src/unnamed/part_006:66). -/
def STREAM_SETTLE_MS : ℤ := 900

/-- Hard settle threshold `STREAM_HARD_SETTLE_MS` (src/unnamed/part_006:67). -/
def STREAM_HARD_SETTLE_MS : ℤ := 2200

/-- One iteration's observation of the environment by the polling loop of
`waitForCoachOutput`: the `Date.now()` reading, the connection state ref, the
text fragments drained from the text queue ref, and the audio-out counter
ref. -/
structure Poll where
  now : ℤ
  connState : ConnectionState
  newTexts : List String
  audioCount : ℕ
  deriving DecidableEq, Repr

/-- The loop's local mutable state: `lastSignalAt`, `lastAudioCount`,
`textParts`. -/
structure TurnAcc where
  lastSignalAt : Option ℤ
  lastAudioCount : ℕ
  textParts : List String
  deriving DecidableEq, Repr

/-- Result shape of `waitForCoachOutput`. -/
structure TurnResult where
  text : Option String
  audioSeen : Bool
  deriving DecidableEq, Repr

/-- Ghost tag recording which `return` of `waitForCoachOutput` produced the
result: the disconnection return, the settle return, or the timeout path. -/
inductive ResolveKind where
  | disconnected
  | settled
  | timedOut
  deriving DecidableEq, Repr

/-- JS `text || null` on a string. -/
def optText (t : String) : Option String := if t = "" then none else some t

/-- The signal-draining part of one loop iteration
(src/unnamed/part_006:571-581): append the truthy fragments of the text queue
(each sets `lastSignalAt = Date.now()`), then fold in a grown audio counter
(also stamping `lastSignalAt`). -/
def drainSignals (acc : TurnAcc) (p : Poll) : TurnAcc :=
  let drained := p.newTexts.filter fun s => !(s == "")
  let parts := acc.textParts ++ drained
  let ls1 := if drained.isEmpty then acc.lastSignalAt else some p.now
  if acc.lastAudioCount < p.audioCount then
    { lastSignalAt := some p.now, lastAudioCount := p.audioCount,
      textParts := parts }
  else
    { lastSignalAt := ls1, lastAudioCount := acc.lastAudioCount,
      textParts := parts }

/-- The settle condition of src/unnamed/part_006:586-589:
`quietMs >= STREAM_HARD_SETTLE_MS || (quietMs >= STREAM_SETTLE_MS &&
text.length > 0 && hasSentenceEnding(text))`. -/
def settleCond (quietMs : ℤ) (text : String) : Bool :=
  decide (STREAM_HARD_SETTLE_MS ≤ quietMs) ||
    (decide (STREAM_SETTLE_MS ≤ quietMs) && decide (0 < text.length) &&
      hasSentenceEnding text)

/-- The polling loop of `waitForCoachOutput` (src/unnamed/part_006:556-602),
one list entry per iteration.  An empty list models exhaustion of the modelled
iterations (the JS loop would keep polling; the timeout return is used, with
the last observed audio counter standing for the final ref read). -/
def waitLoop (startedAt timeoutMs : ℤ) (audioStartCount : ℕ) :
    List Poll → TurnAcc → TurnResult × ResolveKind
  | [], acc =>
    let text := normalizeGeneratedText acc.textParts
    (⟨optText text,
      decide (audioStartCount < acc.lastAudioCount) || !(text == "")⟩,
     .timedOut)
  | p :: rest, acc =>
    if timeoutMs ≤ p.now - startedAt then
      let text := normalizeGeneratedText acc.textParts
      (⟨optText text,
        decide (audioStartCount < p.audioCount) || !(text == "")⟩,
       .timedOut)
    else if p.connState ≠ .connected then
      let text := normalizeGeneratedText acc.textParts
      (⟨optText text,
        decide (audioStartCount < p.audioCount) || !(text == "")⟩,
       .disconnected)
    else
      let acc1 := drainSignals acc p
      match acc1.lastSignalAt with
      | none => waitLoop startedAt timeoutMs audioStartCount rest acc1
      | some sig =>
        let text := normalizeGeneratedText acc1.textParts
        if settleCond (p.now - sig) text then
          (⟨optText text,
            decide (audioStartCount < acc1.lastAudioCount) || !(text == "")⟩,
           .settled)
        else waitLoop startedAt timeoutMs audioStartCount rest acc1

/-- Embedding of `waitForCoachOutput(timeoutMs, audioStartCount)` entered at time
`startedAt`, observing the environment through `polls`: the loop starts with
no signal seen, `lastAudioCount = audioStartCount` and no text parts. -/
def waitForCoachOutput (startedAt timeoutMs : ℤ) (audioStartCount : ℕ)
    (polls : List Poll) : TurnResult × ResolveKind :=
  waitLoop startedAt timeoutMs audioStartCount polls
    ⟨none, audioStartCount, []⟩


open ConnectionManager

/-- Concrete configuration used by the counterexample traces that exercise a
roomy queue: the source defaults `maxAttempts = 8`, `maxQueueSize = 300`
(src/lib/types.ts:103-109), messages are naturals serialized by `Nat.repr`,
no heartbeat factory, no falsy messages. -/
def cfgRoomy : ManagerConfig ℕ ℕ :=
  { maxAttempts := 8
    maxQueueSize := 300
    deadConnectionMs := 1000000
    serialize := fun n => Nat.repr n
    parse := fun _ => Except.ok none
    createHeartbeatMessage := none
    falsy := fun _ => false }

/-- Concrete configuration with the tightest legal policy (`maxAttempts = 0`
and `maxQueueSize = 0` survive the `??` defaulting of the constructor since
`0 ` is neither `null` nor `undefined`), used by the exhaustion and overflow
counterexample traces. -/
def cfgTight : ManagerConfig ℕ ℕ :=
  { maxAttempts := 0
    maxQueueSize := 0
    deadConnectionMs := 5
    serialize := fun n => Nat.repr n
    parse := fun _ => Except.ok none
    createHeartbeatMessage := none
    falsy := fun _ => false }

/-- Concrete configuration with queue capacity 2, used to witness the
overflow eviction. -/
def cfgQueue2 : ManagerConfig ℕ ℕ :=
  { maxAttempts := 8
    maxQueueSize := 2
    deadConnectionMs := 1000000
    serialize := fun n => Nat.repr n
    parse := fun _ => Except.ok none
    createHeartbeatMessage := none
    falsy := fun _ => false }

/-- Concrete configuration equal to `cfgRoomy` except that a heartbeat
factory is configured, always producing the message `9`. -/
def cfgHeartbeat : ManagerConfig ℕ ℕ :=
  { maxAttempts := 8
    maxQueueSize := 300
    deadConnectionMs := 1000000
    serialize := fun n => Nat.repr n
    parse := fun _ => Except.ok none
    createHeartbeatMessage := some fun _ => some 9
    falsy := fun _ => false }

/-- A connected manager state: open socket, heartbeat running, counter at 0. -/
def stConnected : ManagerState ℕ :=
  { socket := some true
    state := .connected
    attempt := 0
    queue := []
    reconnectTimer := false
    heartbeatTimer := true
    manuallyStopped := false
    online := true
    lastMessageAt := 0 }

/-- A manager state that has exhausted its reconnect budget under `cfgTight`
through a socket close: no socket, no pending timers, in `error`. -/
def stExhausted : ManagerState ℕ :=
  { socket := none
    state := .error
    attempt := 1
    queue := []
    reconnectTimer := false
    heartbeatTimer := false
    manuallyStopped := false
    online := true
    lastMessageAt := 0 }

/-- A reconnecting state one failure away from exhaustion under `cfgTight`. -/
def stAboutToExhaust : ManagerState ℕ :=
  { socket := none
    state := .reconnecting
    attempt := 0
    queue := []
    reconnectTimer := false
    heartbeatTimer := false
    manuallyStopped := false
    online := true
    lastMessageAt := 0 }

/-- The loop state of `waitForCoachOutput` after fully processing a prefix of
the poll observations without resolving. -/
def drainFold (acc : TurnAcc) (polls : List Poll) : TurnAcc :=
  polls.foldl drainSignals acc

/-- Whether the iteration observing `p`, entered with loop state `acc`,
satisfies the settle condition after draining its signals: some signal has
been seen and the quiet time/sentence-boundary rule of
src/unnamed/part_006:586-589 fires. -/
def settleCheck (acc : TurnAcc) (p : Poll) : Bool :=
  match (drainSignals acc p).lastSignalAt with
  | none => false
  | some sig =>
    settleCond (p.now - sig)
      (normalizeGeneratedText (drainSignals acc p).textParts)

/-- Adjacency discipline of fully normalized text: no whitespace character is
followed by whitespace or by one of the normalization punctuation marks. -/
def wsRel (a b : Char) : Prop :=
  isJsWs a = true → isJsWs b = false ∧ isNormPunct b = false

/-- Adjacency discipline after whitespace collapsing alone: no two adjacent
whitespace characters. -/
def wsRel2 (a b : Char) : Prop := isJsWs a = true → isJsWs b = false

/-- Every whitespace character is the plain space emitted by the collapse. -/
def wsCanon (l : List Char) : Prop := ∀ c ∈ l, isJsWs c = true → c = ' '

/-- The first character, if any, is not whitespace. -/
def headNonWs (l : List Char) : Prop := ∀ c ∈ l.head?, isJsWs c = false

/-- The notification discipline of one manager operation: starting from the
state value `st.state` (equal to the last notification delivered so far, or
the initial `connecting`), the `onStateChange` notifications it emits are
pairwise distinct from their predecessor, and the last one (if any) equals the
new current state `st'.state`. -/
def StepOk {M R : Type} (st st' : ManagerState M) (evs : List (Out R)) : Prop :=
  List.Chain (fun a b => a ≠ b) st.state (stateChanges evs) ∧
  (stateChanges evs).getLastD st.state = st'.state

/-- Whether a stimulus carries only successful physical `socket.send`
outcomes. -/
def inputSendsSucceed {M : Type} : Input M → Bool
  | .send _ ok => ok
  | .heartbeatTick _ ok => ok
  | .socketOpened _ _ oracle => oracle.all fun b => b
  | _ => true

theorem le_mathMax_left (a b : ℤ) : a ≤ mathMax a b := by
  unfold mathMax
  split <;> omega

theorem mathMax_le_mathMax (a : ℤ) {b c : ℤ} (h : b ≤ c) :
    mathMax a b ≤ mathMax a c := by
  unfold mathMax
  split <;> split <;> omega

theorem mathMin_le_right (a b : ℚ) : mathMin a b ≤ b := by
  unfold mathMin
  by_cases h : a ≤ b
  · simp [h]
  · simp [h]

theorem mathMin_nonneg {a b : ℚ} (ha : 0 ≤ a) (hb : 0 ≤ b) :
    0 ≤ mathMin a b := by
  unfold mathMin
  by_cases h : a ≤ b
  · simp [h, ha]
  · simp [h, hb]

theorem jsRound_le_jsRound {a b : ℚ} (h : a ≤ b) : jsRound a ≤ jsRound b :=
  Int.floor_le_floor (add_le_add_right h _)

/-- Claim C2, amended.  `calculateBackoffDelay` is a pure function of the
attempt number and the options (hence deterministic for a fixed injected
random source), computed exactly as `min(baseDelay * 2^(attempt-1), maxDelay)`
perturbed by `± delay * jitterRatio`, floored at 250 and rounded half-up;
whenever the policy values are nonnegative and the random source yields a
value in `[0, 1]`, `250 ≤ backoff(attempt) ≤ max(250, round(maxDelay *
(1 + jitterRatio)))`, and the scenario base=500, max=3000, jitter=0.2,
attempt=4, random=0.5 gives exactly 3000.  The bound claimed in the spec,
`backoff(attempt) ≤ maxDelay * (1 + jitterRatio)` with no 250 floor on the
right-hand side, fails for small policies (see the counterexample). -/
theorem backoff_delay_bounds (attempt : ℕ) (o : BackoffOptions)
    (ha : 1 ≤ attempt) (hb : 0 ≤ o.baseDelayMs) (hm : 0 ≤ o.maxDelayMs)
    (hj : 0 ≤ o.jitterRatio) (hr0 : 0 ≤ o.random) (hr1 : o.random ≤ 1) :
    (250 ≤ calculateBackoffDelay attempt o ∧
      calculateBackoffDelay attempt o ≤
        mathMax 250 (jsRound (o.maxDelayMs * (1 + o.jitterRatio)))) ∧
    calculateBackoffDelay 4 ⟨500, 3000, mkRat 1 5, mkRat 1 2⟩ = 3000 := by
  refine ⟨⟨?_, ?_⟩, ?_⟩
  · simp only [calculateBackoffDelay]
    exact le_mathMax_left _ _
  · simp only [calculateBackoffDelay]
    apply mathMax_le_mathMax
    apply jsRound_le_jsRound
    have hcap_le : mathMin (o.baseDelayMs * 2 ^ (attempt - 1)) o.maxDelayMs ≤
        o.maxDelayMs := mathMin_le_right _ _
    have hcap_nn : 0 ≤ mathMin (o.baseDelayMs * 2 ^ (attempt - 1)) o.maxDelayMs :=
      mathMin_nonneg (mul_nonneg hb (pow_nonneg (by norm_num) _)) hm
    nlinarith [mul_le_mul_of_nonneg_right hcap_le hj,
      mul_le_mul_of_nonneg_left (show o.random * 2 - 1 ≤ 1 by linarith)
        (mul_nonneg hcap_nn hj)]
  · simp only [calculateBackoffDelay, mathMin, mathMax, jsRound,
      Rat.mkRat_eq_div]
    norm_num

/-- Claim C2, counterexample to the claimed upper bound: with base=100,
max=100, jitter=0, random=0.5 the 250ms floor makes the delay 250, which
exceeds `maxDelay * (1 + jitterRatio) = 100`. -/
theorem backoff_upper_bound_counterexample :
    calculateBackoffDelay 1 ⟨100, 100, 0, mkRat 1 2⟩ = 250 ∧
    ¬ ((calculateBackoffDelay 1 ⟨100, 100, 0, mkRat 1 2⟩ : ℚ) ≤
        (100 : ℚ) * (1 + 0)) := by
  have h : calculateBackoffDelay 1 ⟨100, 100, 0, mkRat 1 2⟩ = 250 := by
    simp only [calculateBackoffDelay, mathMin, mathMax, jsRound,
      Rat.mkRat_eq_div]
    norm_num
  refine ⟨h, ?_⟩
  rw [h]
  norm_num

/-- Witness for `backoff_delay_bounds` at the concrete scenario input. -/
theorem backoff_delay_bounds_witness :
    250 ≤ calculateBackoffDelay 4 ⟨500, 3000, mkRat 1 5, mkRat 1 2⟩ ∧
    calculateBackoffDelay 4 ⟨500, 3000, mkRat 1 5, mkRat 1 2⟩ = 3000 := by
  have h := backoff_delay_bounds 4 ⟨500, 3000, mkRat 1 5, mkRat 1 2⟩
    (by norm_num) (by norm_num) (by norm_num)
    (by rw [show (⟨500, 3000, mkRat 1 5, mkRat 1 2⟩ : BackoffOptions).jitterRatio =
        mkRat 1 5 from rfl, Rat.mkRat_eq_div]; norm_num)
    (by rw [show (⟨500, 3000, mkRat 1 5, mkRat 1 2⟩ : BackoffOptions).random =
        mkRat 1 2 from rfl, Rat.mkRat_eq_div]; norm_num)
    (by rw [show (⟨500, 3000, mkRat 1 5, mkRat 1 2⟩ : BackoffOptions).random =
        mkRat 1 2 from rfl, Rat.mkRat_eq_div]; norm_num)
  exact ⟨h.1.1, h.2⟩

theorem takeLast_eq_rtake {α : Type} (n : ℕ) (l : List α) :
    takeLast n l = List.rtake l n := rfl

theorem takeLast_length_le {α : Type} (n : ℕ) (l : List α) :
    (takeLast n l).length ≤ n := by
  unfold takeLast
  rw [List.length_drop]
  omega

theorem takeLast_of_length_le {α : Type} {n : ℕ} {l : List α}
    (h : l.length ≤ n) : takeLast n l = l := by
  unfold takeLast
  rw [Nat.sub_eq_zero_of_le h, List.drop_zero]

theorem enqueueCapped_eq_takeLast {M : Type} (n : ℕ) (q : List M) (m : M) :
    enqueueCapped n q m = takeLast n (q ++ [m]) := by
  show (if n < (q ++ [m]).length then
      List.drop ((q ++ [m]).length - n) (q ++ [m]) else q ++ [m]) =
    List.drop ((q ++ [m]).length - n) (q ++ [m])
  split
  · rfl
  · next h => rw [Nat.sub_eq_zero_of_le (by omega), List.drop_zero]

theorem takeLast_append_takeLast {α : Type} (n : ℕ) (a b : List α) :
    takeLast n (takeLast n a ++ b) = takeLast n (a ++ b) := by
  rw [takeLast_eq_rtake, takeLast_eq_rtake, takeLast_eq_rtake,
    List.rtake_eq_reverse_take_reverse, List.rtake_eq_reverse_take_reverse,
    List.rtake_eq_reverse_take_reverse]
  rw [List.reverse_append, List.reverse_reverse, List.reverse_append]
  rw [List.take_append_eq_append_take, List.take_append_eq_append_take,
    List.take_take]
  congr 3
  omega

theorem foldl_enqueueCapped {M : Type} (n : ℕ) (msgs : List M) :
    ∀ q : List M, q.length ≤ n →
      msgs.foldl (enqueueCapped n) q = takeLast n (q ++ msgs) := by
  induction msgs with
  | nil =>
    intro q hq
    rw [List.append_nil, List.foldl_nil, takeLast_of_length_le hq]
  | cons m rest ih =>
    intro q hq
    rw [List.foldl_cons, ih (enqueueCapped n q m)
      (by rw [enqueueCapped_eq_takeLast]; exact takeLast_length_le _ _)]
    rw [enqueueCapped_eq_takeLast, takeLast_append_takeLast]
    rw [List.append_assoc, List.singleton_append]

theorem getLast?_drop_of_lt {α : Type} :
    ∀ (l : List α) (k : ℕ), k < l.length → (l.drop k).getLast? = l.getLast? := by
  intro l
  induction l with
  | nil => intro k h; simp at h
  | cons a t ih =>
    intro k h
    match k with
    | 0 => rfl
    | k + 1 =>
      rw [List.drop_succ_cons]
      have ht : k < t.length := by simpa using h
      match t with
      | [] => simp at ht
      | b :: t2 =>
        rw [List.getLast?_cons_cons]
        exact ih k ht

theorem takeLast_getLast? {α : Type} {n : ℕ} (hn : 1 ≤ n) (l : List α) :
    (takeLast n l).getLast? = l.getLast? := by
  match l with
  | [] => simp [takeLast]
  | a :: t =>
    unfold takeLast
    exact getLast?_drop_of_lt _ _ (by simp; omega)

theorem step_send_closed {M R : Type} (cfg : ManagerConfig M R)
    (st : ManagerState M) (m : M) (h : ¬ st.socket = some true) :
    step cfg st (Input.send m true) =
      ({ st with queue := enqueueCapped cfg.maxQueueSize st.queue m }, []) := by
  simp [step, ConnectionManager.send, h]

theorem run_sends_closed {M R : Type} (cfg : ManagerConfig M R)
    (msgs : List M) :
    ∀ st : ManagerState M, ¬ st.socket = some true →
      run cfg st (msgs.map fun m => Input.send m true) =
        ({ st with
            queue := msgs.foldl (enqueueCapped cfg.maxQueueSize) st.queue },
         []) := by
  induction msgs with
  | nil => intro st _; rfl
  | cons m rest ih =>
    intro st h
    show run cfg st (Input.send m true :: rest.map fun x => Input.send x true) = _
    rw [run]
    rw [step_send_closed cfg st m h]
    rw [ih { st with queue := enqueueCapped cfg.maxQueueSize st.queue m } h]
    rfl

/-- Claim C3, confirmed.  Any sequence of `send` calls issued while the socket
is not open, starting from a queue within capacity, leaves the queue equal to
the last `maxQueueSize` elements of the old queue followed by the sent
messages: the length never exceeds `maxQueueSize`, on overflow the oldest
entries are dropped first while the relative order of the surviving entries is
preserved (the queue is literally the newest-suffix of the send sequence), and
as long as the capacity is at least one the newest message is retained. -/
theorem send_while_closed_bounds {M R : Type} (cfg : ManagerConfig M R)
    (st : ManagerState M) (msgs : List M) (hs : ¬ st.socket = some true)
    (hq : st.queue.length ≤ cfg.maxQueueSize) :
    (run cfg st (msgs.map fun m => Input.send m true)).1.queue =
        takeLast cfg.maxQueueSize (st.queue ++ msgs) ∧
    (run cfg st (msgs.map fun m => Input.send m true)).1.queue.length ≤
        cfg.maxQueueSize ∧
    (1 ≤ cfg.maxQueueSize →
      (run cfg st (msgs.map fun m => Input.send m true)).1.queue.getLast? =
        (st.queue ++ msgs).getLast?) := by
  have hrun := run_sends_closed cfg msgs st hs
  have hfold := foldl_enqueueCapped cfg.maxQueueSize msgs st.queue hq
  refine ⟨?_, ?_, ?_⟩
  · rw [hrun]
    exact hfold
  · rw [hrun]
    simpa [hfold] using takeLast_length_le cfg.maxQueueSize (st.queue ++ msgs)
  · intro hn
    rw [hrun]
    show (msgs.foldl (enqueueCapped cfg.maxQueueSize) st.queue).getLast? = _
    rw [hfold]
    exact takeLast_getLast? hn _

/-- Witness for `send_while_closed_bounds`: capacity 2, three sends from the
initial (closed, empty-queue) manager keep `[2, 3]`, of length 2, with the
newest message `3` last. -/
theorem send_while_closed_bounds_witness :
    (run cfgQueue2 initialState
        ([1, 2, 3].map fun m => Input.send m true)).1.queue = [2, 3] ∧
    (run cfgQueue2 initialState
        ([1, 2, 3].map fun m => Input.send m true)).1.queue.length ≤ 2 ∧
    (run cfgQueue2 initialState
        ([1, 2, 3].map fun m => Input.send m true)).1.queue.getLast? =
      some 3 := by
  have h := send_while_closed_bounds cfgQueue2 initialState [1, 2, 3]
    (by decide) (by decide)
  refine ⟨?_, h.2.1, ?_⟩
  · rw [h.1]
    decide
  · rw [h.2.2 (by decide)]
    decide

theorem stateChanges_append {R : Type} (a b : List (Out R)) :
    stateChanges (a ++ b) = stateChanges a ++ stateChanges b := by
  unfold stateChanges
  exact List.filterMap_append _ _ _

theorem getLastD_append {α : Type} (l1 l2 : List α) (a : α) :
    (l1 ++ l2).getLastD a = l2.getLastD (l1.getLastD a) := by
  induction l1 generalizing a with
  | nil => rfl
  | cons b t ih =>
    rw [List.cons_append, List.getLastD_cons, List.getLastD_cons]
    exact ih b

theorem chain_glue {α : Type} {r : α → α → Prop} :
    ∀ (l1 : List α) (a : α) {l2 : List α}, List.Chain r a l1 →
      List.Chain r (l1.getLastD a) l2 → List.Chain r a (l1 ++ l2) := by
  intro l1
  induction l1 with
  | nil => intro a l2 _ h2; exact h2
  | cons b t ih =>
    intro a l2 h1 h2
    rcases List.chain_cons.mp h1 with ⟨hab, hbt⟩
    rw [List.getLastD_cons] at h2
    exact List.chain_cons.mpr ⟨hab, ih b hbt h2⟩

theorem stepOk_silent {M R : Type} {st st' : ManagerState M}
    {evs : List (Out R)} (h : stateChanges evs = [])
    (he : st'.state = st.state) : StepOk st st' evs := by
  constructor
  · rw [h]; exact List.Chain.nil
  · rw [h]; exact he.symm

theorem stepOk_congr {M R : Type} {stM st st' : ManagerState M}
    {evs : List (Out R)} (hs : StepOk stM st' evs)
    (h : stM.state = st.state) : StepOk st st' evs := by
  unfold StepOk at hs ⊢
  rw [h] at hs
  exact hs

theorem stepOk_retarget {M R : Type} {st st1 st2 : ManagerState M}
    {evs : List (Out R)} (hs : StepOk st st1 evs)
    (h : st2.state = st1.state) : StepOk st st2 evs := by
  unfold StepOk at hs ⊢
  rw [h]
  exact hs

theorem stepOk_comp {M R : Type} {st st1 st2 : ManagerState M}
    {e1 e2 : List (Out R)} (h1 : StepOk st st1 e1) (h2 : StepOk st1 st2 e2) :
    StepOk st st2 (e1 ++ e2) := by
  obtain ⟨c1, l1⟩ := h1
  obtain ⟨c2, l2⟩ := h2
  constructor
  · rw [stateChanges_append]
    refine chain_glue _ _ c1 ?_
    rw [l1]
    exact c2
  · rw [stateChanges_append, getLastD_append, l1, l2]

theorem stepOk_append_silent {M R : Type} {st st' : ManagerState M}
    {evs extra : List (Out R)} (h : StepOk st st' evs)
    (hsc : stateChanges extra = []) : StepOk st st' (evs ++ extra) :=
  stepOk_comp h (stepOk_silent hsc rfl)

theorem stepOk_transition {M R : Type} (st : ManagerState M)
    (s : ConnectionState) :
    StepOk st (transition (R := R) st s).1 (transition (R := R) st s).2 := by
  unfold transition
  split
  · exact stepOk_silent rfl rfl
  · next h =>
    refine ⟨?_, rfl⟩
    exact List.chain_cons.mpr ⟨h, List.Chain.nil⟩

theorem stepOk_scheduleReconnect {M R : Type} (cfg : ManagerConfig M R)
    (st : ManagerState M) (reason : String) :
    StepOk st (scheduleReconnect cfg st reason).1
      (scheduleReconnect cfg st reason).2 := by
  simp only [scheduleReconnect]
  split
  · exact stepOk_silent rfl rfl
  · split
    · exact stepOk_transition st .offline
    · split
      · exact stepOk_append_silent
          (stepOk_congr (stepOk_transition _ .error) rfl) rfl
      · exact stepOk_retarget
          (stepOk_congr (stepOk_transition _ .reconnecting) rfl) rfl

theorem stepOk_sendNow {M R : Type} (cfg : ManagerConfig M R)
    (st : ManagerState M) (m : M) (ok : Bool) :
    StepOk st (sendNow cfg st m ok).1 (sendNow cfg st m ok).2 := by
  simp only [sendNow]
  split
  · split
    · exact stepOk_silent rfl rfl
    · exact stepOk_congr (stepOk_scheduleReconnect cfg _ _) rfl
  · exact stepOk_silent rfl rfl

theorem stepOk_flushLoop {M R : Type} (cfg : ManagerConfig M R) :
    ∀ (fuel : ℕ) (st : ManagerState M) (oracle : List Bool),
      StepOk st (flushLoop cfg fuel st oracle).1
        (flushLoop cfg fuel st oracle).2 := by
  intro fuel
  induction fuel with
  | zero => intro st oracle; exact stepOk_silent rfl rfl
  | succ n ih =>
    intro st oracle
    simp only [flushLoop]
    split
    · exact stepOk_silent rfl rfl
    · split
      · exact stepOk_congr (ih _ oracle) rfl
      · exact stepOk_comp (stepOk_congr (stepOk_sendNow cfg _ _ _) rfl)
          (ih _ oracle.tail)

theorem stepOk_flushQueue {M R : Type} (cfg : ManagerConfig M R)
    (st : ManagerState M) (fuel : ℕ) (oracle : List Bool) :
    StepOk st (flushQueue cfg st fuel oracle).1
      (flushQueue cfg st fuel oracle).2 := by
  simp only [flushQueue]
  split
  · exact stepOk_flushLoop cfg fuel st oracle
  · exact stepOk_silent rfl rfl

theorem stepOk_handleOpen {M R : Type} (cfg : ManagerConfig M R)
    (st : ManagerState M) (now : ℤ) (fuel : ℕ) (oracle : List Bool) :
    StepOk st (handleOpen cfg st now fuel oracle).1
      (handleOpen cfg st now fuel oracle).2 := by
  simp only [handleOpen]
  refine stepOk_comp (stepOk_congr (stepOk_transition _ .connected) rfl) ?_
  show StepOk _ _ ([Out.opened] ++ _)
  exact stepOk_comp (stepOk_silent rfl rfl)
    (stepOk_congr (stepOk_flushQueue cfg _ fuel oracle) rfl)

theorem stepOk_handleMessage {M R : Type} (cfg : ManagerConfig M R)
    (st : ManagerState M) (raw : String) (now : ℤ) :
    StepOk st (handleMessage cfg st raw now).1
      (handleMessage cfg st raw now).2 := by
  simp only [handleMessage]
  split
  · exact stepOk_silent rfl rfl
  · split
    · exact stepOk_silent rfl rfl
    · exact stepOk_silent rfl rfl
    · exact stepOk_silent rfl rfl

theorem stepOk_handleError {M R : Type} (st : ManagerState M) :
    StepOk st (handleError (R := R) st).1 (handleError (R := R) st).2 :=
  stepOk_silent rfl rfl

theorem stepOk_handleClose {M R : Type} (cfg : ManagerConfig M R)
    (st : ManagerState M) :
    StepOk st (handleClose cfg st).1 (handleClose cfg st).2 := by
  simp only [handleClose]
  split
  · exact stepOk_silent rfl rfl
  · exact stepOk_congr (stepOk_scheduleReconnect cfg _ _) rfl

theorem stepOk_heartbeatTick {M R : Type} (cfg : ManagerConfig M R)
    (st : ManagerState M) (now : ℤ) (ok : Bool) :
    StepOk st (heartbeatTick cfg st now ok).1
      (heartbeatTick cfg st now ok).2 := by
  simp only [heartbeatTick]
  split
  · split
    · exact stepOk_congr (stepOk_scheduleReconnect cfg _ _) rfl
    · split
      · exact stepOk_silent rfl rfl
      · split
        · exact stepOk_silent rfl rfl
        · exact stepOk_sendNow cfg st _ ok
  · exact stepOk_silent rfl rfl

theorem stepOk_openSocket {M R : Type} (cfg : ManagerConfig M R)
    (st : ManagerState M) (reconnecting : Bool) (createOk : Bool) :
    StepOk st (openSocket cfg st reconnecting createOk).1
      (openSocket cfg st reconnecting createOk).2 := by
  simp only [openSocket]
  split
  · exact stepOk_transition st .offline
  · split
    · exact stepOk_retarget (stepOk_congr (stepOk_transition _ _) rfl) rfl
    · exact stepOk_comp (stepOk_congr (stepOk_transition _ _) rfl)
        (stepOk_scheduleReconnect cfg _ _)

theorem stepOk_start {M R : Type} (cfg : ManagerConfig M R)
    (st : ManagerState M) (createOk : Bool) :
    StepOk st (ConnectionManager.start cfg st createOk).1
      (ConnectionManager.start cfg st createOk).2 := by
  simp only [ConnectionManager.start]
  split
  · exact stepOk_congr (stepOk_transition _ .offline) rfl
  · split
    · exact stepOk_congr (stepOk_transition _ .connected) rfl
    · exact stepOk_congr (stepOk_openSocket cfg _ false createOk) rfl

theorem stepOk_stop {M R : Type} (st : ManagerState M) :
    StepOk st (ConnectionManager.stop (R := R) st).1
      (ConnectionManager.stop (R := R) st).2 := by
  simp only [ConnectionManager.stop]
  exact stepOk_congr (stepOk_transition _ _) rfl

theorem stepOk_retryNow {M R : Type} (cfg : ManagerConfig M R)
    (st : ManagerState M) (createOk : Bool) :
    StepOk st (retryNow cfg st createOk).1 (retryNow cfg st createOk).2 := by
  simp only [retryNow]
  split
  · exact stepOk_transition st .offline
  · exact stepOk_congr (stepOk_openSocket cfg _ true createOk) rfl

theorem stepOk_setOnlineStatus {M R : Type} (cfg : ManagerConfig M R)
    (st : ManagerState M) (online : Bool) (createOk : Bool) :
    StepOk st (setOnlineStatus cfg st online createOk).1
      (setOnlineStatus cfg st online createOk).2 := by
  simp only [setOnlineStatus]
  split
  · exact stepOk_congr (stepOk_transition _ .offline) rfl
  · split
    · exact stepOk_congr (stepOk_retryNow cfg _ createOk) rfl
    · exact stepOk_silent rfl rfl

theorem stepOk_send {M R : Type} (cfg : ManagerConfig M R)
    (st : ManagerState M) (m : M) (ok : Bool) :
    StepOk st (ConnectionManager.send cfg st m ok).1
      (ConnectionManager.send cfg st m ok).2 := by
  simp only [ConnectionManager.send]
  split
  · exact stepOk_sendNow cfg st m ok
  · exact stepOk_silent rfl rfl

theorem stepOk_step {M R : Type} (cfg : ManagerConfig M R)
    (st : ManagerState M) (i : Input M) :
    StepOk st (step cfg st i).1 (step cfg st i).2 := by
  cases i with
  | start createOk => exact stepOk_start cfg st createOk
  | stop => exact stepOk_stop st
  | retryNow createOk => exact stepOk_retryNow cfg st createOk
  | setOnline online createOk =>
    exact stepOk_setOnlineStatus cfg st online createOk
  | send m ok => exact stepOk_send cfg st m ok
  | socketOpened now fuel oracle =>
    simp only [step]
    split
    · exact stepOk_handleOpen cfg st now fuel oracle
    · exact stepOk_silent rfl rfl
  | socketMessage raw now =>
    simp only [step]
    split
    · exact stepOk_handleMessage cfg st raw now
    · exact stepOk_silent rfl rfl
  | socketError =>
    simp only [step]
    split
    · exact stepOk_handleError st
    · exact stepOk_silent rfl rfl
  | socketClosed =>
    simp only [step]
    split
    · exact stepOk_handleClose cfg st
    · exact stepOk_silent rfl rfl
  | heartbeatTick now ok =>
    simp only [step]
    split
    · exact stepOk_heartbeatTick cfg st now ok
    · exact stepOk_silent rfl rfl
  | reconnectFire createOk =>
    simp only [step]
    split
    · exact stepOk_congr (stepOk_openSocket cfg _ true createOk) rfl
    · exact stepOk_silent rfl rfl

theorem stepOk_run {M R : Type} (cfg : ManagerConfig M R) :
    ∀ (inputs : List (Input M)) (st : ManagerState M),
      StepOk st (run cfg st inputs).1 (run cfg st inputs).2 := by
  intro inputs
  induction inputs with
  | nil => intro st; exact stepOk_silent rfl rfl
  | cons i rest ih =>
    intro st
    exact stepOk_comp (stepOk_step cfg st i) (ih (step cfg st i).1)

theorem chain'_of_chain {α : Type} {r : α → α → Prop} {a : α} :
    ∀ {l : List α}, List.Chain r a l → List.Chain' r l := by
  intro l h
  cases l with
  | nil => trivial
  | cons b t => exact (List.chain_cons.mp h).2

/-- Claim C9, confirmed.  Over any run of the manager from its initial state,
driven by an arbitrary sequence of API calls and environment callbacks, no two
consecutive `onStateChange` notifications carry the same `ConnectionState`:
every assignment of `this.state` goes through `transition`, which notifies
only when the new state differs from the current one. -/
theorem no_duplicate_state_notifications {M R : Type}
    (cfg : ManagerConfig M R) (inputs : List (Input M)) :
    List.Chain' (fun a b => a ≠ b)
      (stateChanges (run cfg initialState inputs).2) :=
  chain'_of_chain (stepOk_run cfg inputs initialState).1

theorem queue_transition {M R : Type} (st : ManagerState M)
    (s : ConnectionState) : (transition (R := R) st s).1.queue = st.queue := by
  unfold transition
  split <;> rfl

theorem queue_scheduleReconnect {M R : Type} (cfg : ManagerConfig M R)
    (st : ManagerState M) (reason : String) :
    (scheduleReconnect cfg st reason).1.queue = st.queue := by
  simp only [scheduleReconnect]
  split
  · rfl
  · split
    · exact queue_transition st .offline
    · split
      · exact queue_transition _ .error
      · show ({ (clearReconnectTimer (transition _ .reconnecting).1) with
            reconnectTimer := true } : ManagerState M).queue = st.queue
        exact queue_transition _ .reconnecting

theorem sendNow_ok {M R : Type} (cfg : ManagerConfig M R)
    (st : ManagerState M) (m : M) : (sendNow cfg st m true).1 = st := by
  simp only [sendNow]
  split <;> rfl

theorem headD_true_of_all {l : List Bool} (h : ∀ b ∈ l, b = true) :
    l.headD true = true := by
  cases l with
  | nil => rfl
  | cons b t => exact h b (List.mem_cons_self b t)

theorem queue_flushLoop_le {M R : Type} (cfg : ManagerConfig M R) :
    ∀ (fuel : ℕ) (st : ManagerState M) (oracle : List Bool),
      (∀ b ∈ oracle, b = true) →
      (flushLoop cfg fuel st oracle).1.queue.length ≤ st.queue.length := by
  intro fuel
  induction fuel with
  | zero => intro st oracle _; exact le_refl _
  | succ n ih =>
    intro st oracle hall
    simp only [flushLoop]
    split
    · exact le_refl _
    · next next rest hq =>
      split
      · calc (flushLoop cfg n { st with queue := rest } oracle).1.queue.length
            ≤ rest.length := ih _ oracle hall
          _ ≤ st.queue.length := by rw [hq]; simp
      · rw [headD_true_of_all hall, sendNow_ok]
        calc (flushLoop cfg n { st with queue := rest } oracle.tail).1.queue.length
            ≤ rest.length := ih _ oracle.tail
              (fun b hb => hall b (List.mem_of_mem_tail hb))
          _ ≤ st.queue.length := by rw [hq]; simp

theorem step_queue_bound {M R : Type} (cfg : ManagerConfig M R)
    (st : ManagerState M) (i : Input M) (hok : inputSendsSucceed i = true)
    (h : st.queue.length ≤ cfg.maxQueueSize) :
    (step cfg st i).1.queue.length ≤ cfg.maxQueueSize := by
  cases i with
  | start createOk =>
    simp only [step, ConnectionManager.start]
    split
    · rw [queue_transition]; exact h
    · split
      · rw [queue_transition]; exact h
      · simp only [openSocket]
        split
        · rw [queue_transition]; exact h
        · split
          · show ({ (transition _ _).1 with
                socket := some false } : ManagerState M).queue.length ≤ _
            rw [queue_transition]; exact h
          · rw [queue_scheduleReconnect, queue_transition]; exact h
  | stop =>
    simp only [step, ConnectionManager.stop]
    rw [queue_transition]
    exact h
  | retryNow createOk =>
    simp only [step, retryNow]
    split
    · rw [queue_transition]; exact h
    · simp only [openSocket]
      split
      · rw [queue_transition]; exact h
      · split
        · show ({ (transition _ _).1 with
              socket := some false } : ManagerState M).queue.length ≤ _
          rw [queue_transition]; exact h
        · rw [queue_scheduleReconnect, queue_transition]; exact h
  | setOnline online createOk =>
    simp only [step, setOnlineStatus]
    split
    · rw [queue_transition]; exact h
    · split
      · simp only [retryNow]
        split
        · rw [queue_transition]; exact h
        · simp only [openSocket]
          split
          · rw [queue_transition]; exact h
          · split
            · show ({ (transition _ _).1 with
                  socket := some false } : ManagerState M).queue.length ≤ _
              rw [queue_transition]; exact h
            · rw [queue_scheduleReconnect, queue_transition]; exact h
      · exact h
  | send m ok =>
    have hok2 : ok = true := hok
    subst hok2
    simp only [step, ConnectionManager.send]
    split
    · rw [sendNow_ok]; exact h
    · show (enqueueCapped cfg.maxQueueSize st.queue m).length ≤ _
      rw [enqueueCapped_eq_takeLast]
      exact takeLast_length_le _ _
  | socketOpened now fuel oracle =>
    simp only [step]
    split
    · simp only [handleOpen, flushQueue]
      split
      · refine le_trans (queue_flushLoop_le cfg fuel _ oracle ?_) ?_
        · intro b hb
          have := List.all_eq_true.mp hok b hb
          simpa using this
        · show (transition (R := R) _ .connected).1.queue.length ≤ _
          rw [queue_transition]
          exact h
      · show (transition (R := R) _ .connected).1.queue.length ≤ _
        rw [queue_transition]
        exact h
    · exact h
  | socketMessage raw now =>
    simp only [step]
    split
    · simp only [handleMessage]
      split
      · exact h
      · split <;> exact h
    · exact h
  | socketError =>
    simp only [step]
    split
    · exact h
    · exact h
  | socketClosed =>
    simp only [step]
    split
    · simp only [handleClose]
      split
      · exact h
      · rw [queue_scheduleReconnect]; exact h
    · exact h
  | heartbeatTick now ok =>
    have hok2 : ok = true := hok
    subst hok2
    simp only [step]
    split
    · simp only [heartbeatTick]
      split
      · split
        · rw [queue_scheduleReconnect]; exact h
        · split
          · exact h
          · split
            · exact h
            · rw [sendNow_ok]; exact h
      · exact h
    · exact h
  | reconnectFire createOk =>
    simp only [step]
    split
    · simp only [openSocket]
      split
      · rw [queue_transition]; exact h
      · split
        · show ({ (transition _ _).1 with
              socket := some false } : ManagerState M).queue.length ≤ _
          rw [queue_transition]; exact h
        · rw [queue_scheduleReconnect, queue_transition]; exact h
    · exact h

theorem run_queue_bound {M R : Type} (cfg : ManagerConfig M R) :
    ∀ (inputs : List (Input M)) (st : ManagerState M),
      (∀ i ∈ inputs, inputSendsSucceed i = true) →
      st.queue.length ≤ cfg.maxQueueSize →
      (run cfg st inputs).1.queue.length ≤ cfg.maxQueueSize := by
  intro inputs
  induction inputs with
  | nil => intro st _ h; exact h
  | cons i rest ih =>
    intro st hok h
    exact ih (step cfg st i).1 (fun j hj => hok j (List.mem_cons_of_mem i hj))
      (step_queue_bound cfg st i (hok i (List.mem_cons_self i rest)) h)

/-- Claim C4, amended.  In every run of the manager from its initial state in
which every physical `socket.send` succeeds, the outbound queue never exceeds
`maxQueueSize`: every public operation and every internal callback preserves
`getQueueSize() ≤ maxQueueSize`.  The claim fails as stated because the
re-enqueue path of a failed synchronous send (`sendNow`'s catch block) pushes
without enforcing the capacity, so each failed send may exceed the cap by one
entry (see the counterexample). -/
theorem queue_capacity_invariant {M R : Type} (cfg : ManagerConfig M R)
    (inputs : List (Input M))
    (hok : ∀ i ∈ inputs, inputSendsSucceed i = true) :
    (run cfg initialState inputs).1.queue.length ≤ cfg.maxQueueSize :=
  run_queue_bound cfg inputs initialState hok (by simp [initialState])

/-- Claim C4, counterexample: with `maxQueueSize = 0`, opening the socket and
then issuing one `send` whose underlying `socket.send` throws leaves one
message in the queue — `getQueueSize() = 1 > 0 = maxQueueSize`. -/
theorem queue_capacity_counterexample :
    (run cfgTight initialState
      [Input.start true, Input.socketOpened 0 0 [],
        Input.send 5 false]).1.queue.length = 1 ∧
    cfgTight.maxQueueSize = 0 := by
  constructor
  · decide
  · rfl

/-- Witness for `queue_capacity_invariant` on a concrete all-sends-succeed
run that exercises send, start, open-with-flush and a heartbeat tick. -/
theorem queue_capacity_invariant_witness :
    (run cfgQueue2 initialState
      [Input.send 1 true, Input.send 2 true, Input.send 3 true,
        Input.start true, Input.socketOpened 0 5 [],
        Input.heartbeatTick 1 true]).1.queue.length ≤ 2 :=
  queue_capacity_invariant cfgQueue2 _ (by decide)

theorem sendNow_open_ok {M R : Type} (cfg : ManagerConfig M R)
    {st : ManagerState M} (m : M) (h : st.socket = some true) :
    sendNow cfg st m true = (st, [Out.frame (cfg.serialize m)]) := by
  simp [sendNow, h]

theorem flushLoop_all_ok {M R : Type} (cfg : ManagerConfig M R) :
    ∀ (fuel : ℕ) (st : ManagerState M) (oracle : List Bool),
      st.socket = some true → (∀ b ∈ oracle, b = true) →
      st.queue.length ≤ fuel →
      flushLoop cfg fuel st oracle =
        ({ st with queue := [] },
         (st.queue.filter fun m => !(cfg.falsy m)).map
           fun m => Out.frame (cfg.serialize m)) := by
  intro fuel
  induction fuel with
  | zero =>
    intro st oracle hs hall hlen
    have hq : st.queue = [] := List.eq_nil_of_length_eq_zero (by omega)
    rw [hq, List.filter_nil, List.map_nil]
    show (st, []) = _
    rw [show ({ st with queue := [] } : ManagerState M) = st by rw [← hq]]
  | succ n ih =>
    intro st oracle hs hall hlen
    match hq : st.queue with
    | [] =>
      simp only [flushLoop, hq, List.filter_nil, List.map_nil]
      rw [show ({ st with queue := [] } : ManagerState M) = st by rw [← hq]]
    | next :: rest =>
      have h2 := hlen
      rw [hq] at h2
      simp only [List.length_cons] at h2
      have hrest : rest.length ≤ n := by omega
      simp only [flushLoop, hq]
      by_cases hf : cfg.falsy next = true
      · rw [if_pos hf]
        rw [ih { st with queue := rest } oracle (by exact hs) hall
          (by exact hrest)]
        rw [List.filter_cons_of_neg (by simp [hf])]
      · rw [if_neg hf]
        rw [headD_true_of_all hall]
        rw [sendNow_open_ok cfg next
          (show ({ st with queue := rest } : ManagerState M).socket =
            some true from hs)]
        rw [ih { st with queue := rest } oracle.tail (by exact hs)
          (fun b hb => hall b (List.mem_of_mem_tail hb)) (by exact hrest)]
        rw [List.filter_cons_of_pos (by simp [hf]), List.map_cons]
        rfl

/-- Claim C1, amended.  The `onopen` handler resets the attempt counter to 0,
stamps the liveness clock with the current time, transitions to `connected`
(emitting the state-change notification exactly when the state was not already
`connected`), starts the heartbeat timer, invokes the open callback, and then
flushes the outbound queue through `sendNow`; when every physical send during
the flush succeeds, the queue empties and the truthy queued messages are
serialized and sent in their original relative order exactly once.  A
mid-flush send failure re-enqueues the failed message at the back of the queue
rather than dropping it (second conjunct) — which is why, with a failure, the
retried message is sent after the messages that were behind it, breaking the
original relative order (see the counterexample). -/
theorem open_resets_and_flushes_in_order {M R : Type} (cfg : ManagerConfig M R)
    (st : ManagerState M) (now : ℤ) (fuel : ℕ) (oracle : List Bool)
    (hall : ∀ b ∈ oracle, b = true) (hfuel : st.queue.length ≤ fuel) :
    handleOpen cfg st now fuel oracle =
      ({ st with
          socket := some true
          attempt := 0
          lastMessageAt := now
          state := .connected
          heartbeatTimer := true
          queue := [] },
       (if st.state = .connected then [] else [Out.stateChange .connected]) ++
         Out.opened ::
           ((st.queue.filter fun m => !(cfg.falsy m)).map
             fun m => Out.frame (cfg.serialize m))) ∧
    (∀ (st2 : ManagerState M) (m : M), st2.socket = some true →
      (sendNow cfg st2 m false).1.queue = st2.queue ++ [m]) := by
  constructor
  · obtain ⟨sock, stt, att, q, rt, ht, ms, onl, lm⟩ := st
    simp only [handleOpen, transition, startHeartbeat, clearHeartbeatTimer,
      flushQueue]
    by_cases h : stt = ConnectionState.connected
    · subst h
      rw [if_pos rfl, if_pos rfl]
      rw [flushLoop_all_ok cfg fuel _ oracle rfl hall (by simpa using hfuel)]
      rfl
    · rw [if_neg h, if_neg h]
      rw [flushLoop_all_ok cfg fuel _ oracle rfl hall (by simpa using hfuel)]
      rfl
  · intro st2 m h2
    simp only [sendNow, if_pos h2, Bool.false_eq_true, if_false]
    rw [queue_scheduleReconnect]

/-- Claim C1, counterexample to the claimed ordering: queue `[1, 2, 3]` at
open time, with the send of `2` failing once mid-flush (oracle
`[true, false, true, true]`): `2` is re-enqueued behind `3` and the frames go
out as `["1", "3", "2"]`, not in the original relative order
`["1", "2", "3"]`. -/
theorem flush_order_counterexample :
    sentFrames (run cfgRoomy initialState
      [Input.send 1 true, Input.send 2 true, Input.send 3 true,
        Input.start true,
        Input.socketOpened 0 10 [true, false, true, true]]).2 =
      ["1", "3", "2"] ∧
    sentFrames (run cfgRoomy initialState
      [Input.send 1 true, Input.send 2 true, Input.send 3 true,
        Input.start true,
        Input.socketOpened 0 10 [true, false, true, true]]).2 ≠
      [1, 2, 3].map cfgRoomy.serialize := by
  constructor
  · decide
  · decide

/-- Witness for `open_resets_and_flushes_in_order`: opening with queue
`[4, 5]` and an all-success flush resets the counter, empties the queue and
sends frames `["4", "5"]` in order. -/
theorem open_resets_and_flushes_in_order_witness :
    (handleOpen cfgRoomy
        { (initialState : ManagerState ℕ) with socket := some false, queue := [4, 5] }
        7 2 []).1.attempt = 0 ∧
    (handleOpen cfgRoomy
        { (initialState : ManagerState ℕ) with socket := some false, queue := [4, 5] }
        7 2 []).1.state = ConnectionState.connected ∧
    (handleOpen cfgRoomy
        { (initialState : ManagerState ℕ) with socket := some false, queue := [4, 5] }
        7 2 []).1.queue = [] ∧
    sentFrames (handleOpen cfgRoomy
        { (initialState : ManagerState ℕ) with socket := some false, queue := [4, 5] }
        7 2 []).2 = ["4", "5"] := by
  have h := open_resets_and_flushes_in_order cfgRoomy
    { (initialState : ManagerState ℕ) with socket := some false, queue := [4, 5] } 7 2 []
    (by intro b hb; cases hb) (by decide)
  rw [h.1]
  refine ⟨rfl, rfl, rfl, ?_⟩
  decide

theorem transition_state {M R : Type} (st : ManagerState M)
    (s : ConnectionState) : (transition (R := R) st s).1.state = s := by
  unfold transition
  split
  · next h => exact h
  · rfl

theorem transition_events {M R : Type} (st : ManagerState M)
    (s : ConnectionState) :
    (transition (R := R) st s).2 =
      if st.state = s then [] else [Out.stateChange s] := by
  unfold transition
  split <;> rfl

theorem transition_reconnectTimer {M R : Type} (st : ManagerState M)
    (s : ConnectionState) :
    (transition (R := R) st s).1.reconnectTimer = st.reconnectTimer := by
  unfold transition
  split <;> rfl

theorem step_callback_noop {M R : Type} (cfg : ManagerConfig M R)
    (stq : ManagerState M) (i : Input M) (h1 : stq.socket = none)
    (h2 : stq.reconnectTimer = false) (h3 : stq.heartbeatTimer = false)
    (hc : isCallbackInput i = true) : step cfg stq i = (stq, []) := by
  cases i <;> simp_all [step, isCallbackInput]

theorem run_quiescent {M R : Type} (cfg : ManagerConfig M R) :
    ∀ (inputs : List (Input M)) (stq : ManagerState M),
      stq.socket = none → stq.reconnectTimer = false →
      stq.heartbeatTimer = false →
      (∀ i ∈ inputs, isCallbackInput i = true) →
      run cfg stq inputs = (stq, []) := by
  intro inputs
  induction inputs with
  | nil => intro stq _ _ _ _; rfl
  | cons i rest ih =>
    intro stq h1 h2 h3 hc
    show run cfg stq (i :: rest) = (stq, [])
    rw [run]
    rw [step_callback_noop cfg stq i h1 h2 h3 (hc i (List.mem_cons_self i rest))]
    rw [ih stq h1 h2 h3 (fun j hj => hc j (List.mem_cons_of_mem i hj))]
    rfl

/-- Claim C5, amended.  When the incremented attempt counter exceeds
`maxAttempts` (while online and not manually stopped), `scheduleReconnect`
puts the manager in `error`, emits the `error` state-change notification
exactly when the state was not already `error`, reports the terminal failure
through the error observer once per triggering failure, and arms no reconnect
timer (the pending-timer flag is left untouched).  When additionally the
socket is gone and no timer is pending — as after exhaustion through a socket
close, which clears the heartbeat and drops the socket — every further
environment callback is a no-op, so nothing happens until the caller
intervenes.  The claim's "reports the terminal failure exactly once" fails as
stated: exhaustion through a failed send leaves the socket open and the
heartbeat running, and a later dead-link detection re-reports the terminal
failure with no caller action in between (see the counterexample). -/
theorem max_attempts_exhaustion {M R : Type} (cfg : ManagerConfig M R)
    (st : ManagerState M) (reason : String)
    (hms : st.manuallyStopped = false) (hon : st.online = true)
    (hmax : cfg.maxAttempts < st.attempt + 1) :
    (scheduleReconnect cfg st reason).1.state = .error ∧
    (scheduleReconnect cfg st reason).2 =
      (if st.state = .error then [] else [Out.stateChange .error]) ++
        [Out.errorMsg (reason ++ (" Max retries reached."))] ∧
    (scheduleReconnect cfg st reason).1.reconnectTimer = st.reconnectTimer ∧
    (∀ (stq : ManagerState M) (inputs : List (Input M)),
      stq.socket = none → stq.reconnectTimer = false →
      stq.heartbeatTimer = false →
      (∀ i ∈ inputs, isCallbackInput i = true) →
      run cfg stq inputs = (stq, [])) := by
  have hsched : scheduleReconnect cfg st reason =
      ((transition (R := R) { st with attempt := st.attempt + 1 } .error).1,
       (transition (R := R) { st with attempt := st.attempt + 1 } .error).2 ++
         [Out.errorMsg (reason ++ (" Max retries reached."))]) := by
    simp only [scheduleReconnect, hms, hon, Bool.false_eq_true,
      Bool.true_eq_false, if_false]
    rw [if_pos (show cfg.maxAttempts <
      ({ st with attempt := st.attempt + 1 } : ManagerState M).attempt
      from hmax)]
  refine ⟨?_, ?_, ?_,
    fun stq inputs a b c d => run_quiescent cfg inputs stq a b c d⟩
  · rw [hsched]
    exact transition_state _ .error
  · rw [hsched]
    show (transition (R := R) _ .error).2 ++ _ = _
    rw [transition_events]
  · rw [hsched]
    exact transition_reconnectTimer _ .error

/-- Claim C5, counterexample to "reports the terminal failure exactly once":
with `maxAttempts = 0`, a failed send on the open socket exhausts the budget
(first terminal report) but leaves the socket open and the heartbeat armed;
the next heartbeat tick finds the connection dead and re-reports the terminal
failure — two error-observer calls, with no `start()`/`retryNow()` in
between. -/
theorem terminal_error_reported_twice_counterexample :
    (run cfgTight initialState
      [Input.start true, Input.socketOpened 0 0 [], Input.send 7 false,
        Input.heartbeatTick 100 true]).2.filter isErrorOut =
      [Out.errorMsg ("Send failed. Reconnecting... Max retries reached."),
        Out.errorMsg ("Connection timed out. Max retries reached.")] := by
  decide

/-- Witness for `max_attempts_exhaustion`: under `cfgTight` a close-triggered
`scheduleReconnect` from `stAboutToExhaust` goes terminal, and from the
resulting quiescent `stExhausted` shape the socket callbacks and timer
firings all do nothing. -/
theorem max_attempts_exhaustion_witness :
    (scheduleReconnect cfgTight stAboutToExhaust ("Connection closed.")).1.state =
      ConnectionState.error ∧
    (scheduleReconnect cfgTight stAboutToExhaust
      ("Connection closed.")).1.reconnectTimer = false ∧
    run cfgTight stExhausted
      [Input.socketClosed, Input.heartbeatTick 9 true,
        Input.reconnectFire true, Input.socketOpened 1 0 []] =
      (stExhausted, []) := by
  have h := max_attempts_exhaustion cfgTight stAboutToExhaust
    ("Connection closed.") rfl rfl (by decide)
  exact ⟨h.1, h.2.2.1, h.2.2.2 stExhausted _ rfl rfl rfl (by decide)⟩

/-- Claim C6, amended.  On a heartbeat tick with an open socket while
`connected` (online, not manually stopped): if the time since the last
inbound message exceeds `deadConnectionMs` and the incremented attempt
counter stays within `maxAttempts`, the manager force-closes the socket and
schedules exactly one reconnect attempt (one armed timer, one transition to
`reconnecting`, no other events); when instead that increment would exceed
`maxAttempts`, it transitions to `error` and schedules nothing — so the
claim's "never zero" fails there (see the counterexample).  Otherwise, when
the threshold has not elapsed and the configured heartbeat factory returns a
message and the physical send succeeds, exactly one heartbeat frame is sent
and the state is untouched. -/
theorem heartbeat_dead_link_detection {M R : Type} (cfg : ManagerConfig M R)
    (st : ManagerState M) (now : ℤ) (ok : Bool)
    (hhb : st.heartbeatTimer = true) (hs : st.socket = some true)
    (hstate : st.state = .connected) (hms : st.manuallyStopped = false)
    (hon : st.online = true) :
    (cfg.deadConnectionMs < now - st.lastMessageAt →
      st.attempt + 1 ≤ cfg.maxAttempts →
      heartbeatTick cfg st now ok =
        ({ st with
            socket := none
            attempt := st.attempt + 1
            state := .reconnecting
            reconnectTimer := true },
         [Out.stateChange .reconnecting])) ∧
    (cfg.deadConnectionMs < now - st.lastMessageAt →
      cfg.maxAttempts < st.attempt + 1 →
      heartbeatTick cfg st now ok =
        ({ st with socket := none, attempt := st.attempt + 1, state := .error },
         (if st.state = .error then [] else [Out.stateChange .error]) ++
           [Out.errorMsg ("Connection timed out. Max retries reached.")])) ∧
    (¬ cfg.deadConnectionMs < now - st.lastMessageAt →
      ∀ (f : Unit → Option M) (hb : M), cfg.createHeartbeatMessage = some f →
        f () = some hb → ok = true →
        heartbeatTick cfg st now ok = (st, [Out.frame (cfg.serialize hb)])) := by
  refine ⟨?_, ?_, ?_⟩
  · intro hdead hle
    simp only [heartbeatTick, if_pos hs, if_pos hdead, scheduleReconnect,
      safeCloseSocket, clearReconnectTimer, transition]
    simp only [hms, hon, Bool.false_eq_true, Bool.true_eq_false, if_false]
    rw [if_neg (by simpa using hle)]
    rw [if_neg (by simp [hstate])]
  · intro hdead hgt
    simp only [heartbeatTick, if_pos hs, if_pos hdead, scheduleReconnect,
      safeCloseSocket, transition]
    simp only [hms, hon, Bool.false_eq_true, Bool.true_eq_false, if_false]
    rw [if_pos (by simpa using hgt)]
    by_cases he : st.state = ConnectionState.error
    · rw [hstate] at he
      exact absurd he (by decide)
    · rw [if_neg he, if_neg he]
      rfl
  · intro hquiet f hb hf hfhb hok
    subst hok
    simp only [heartbeatTick, if_pos hs, if_neg hquiet, hf, hfhb]
    exact sendNow_open_ok cfg hb hs

/-- Claim C6, counterexample to "schedules exactly one reconnect attempt
(never zero)": with `maxAttempts = 0`, the first dead-link detection exhausts
the budget — the manager transitions to `error` and arms no reconnect
timer. -/
theorem dead_link_zero_reconnect_counterexample :
    (run cfgTight initialState
      [Input.start true, Input.socketOpened 0 0 [],
        Input.heartbeatTick 100 true]).1.reconnectTimer = false ∧
    (run cfgTight initialState
      [Input.start true, Input.socketOpened 0 0 [],
        Input.heartbeatTick 100 true]).1.state = ConnectionState.error := by
  constructor
  · decide
  · decide

/-- Witness for `heartbeat_dead_link_detection`: under `cfgRoomy`
(`deadConnectionMs = 10^6`, `maxAttempts = 8`) a tick at `now = 2 * 10^6`
from the connected state force-closes and arms exactly one reconnect, and
under `cfgHeartbeat` a quiet-side tick at `now = 10` sends exactly one
heartbeat frame. -/
theorem heartbeat_dead_link_detection_witness :
    heartbeatTick cfgRoomy stConnected 2000000 true =
      ({ stConnected with
          socket := none
          attempt := 1
          state := .reconnecting
          reconnectTimer := true },
       [Out.stateChange .reconnecting]) ∧
    heartbeatTick cfgHeartbeat stConnected 10 true =
      (stConnected, [Out.frame ("9")]) := by
  constructor
  · exact (heartbeat_dead_link_detection cfgRoomy stConnected 2000000 true
      rfl rfl rfl rfl rfl).1 (by decide) (by decide)
  · exact (heartbeat_dead_link_detection cfgHeartbeat stConnected 10 true
      rfl rfl rfl rfl rfl).2.2 (by decide) _ 9 rfl rfl rfl

theorem waitLoop_settled_iff (startedAt timeoutMs : ℤ) (a0 : ℕ) :
    ∀ (polls : List Poll) (acc : TurnAcc),
      (∀ p ∈ polls, p.connState = .connected ∧
        p.now - startedAt < timeoutMs) →
      ((waitLoop startedAt timeoutMs a0 polls acc).2 = .settled ↔
        ∃ pre q suf, polls = pre ++ q :: suf ∧
          settleCheck (drainFold acc pre) q = true) := by
  intro polls
  induction polls with
  | nil =>
    intro acc _
    constructor
    · intro h
      exact absurd h (by simp [waitLoop])
    · rintro ⟨pre, q, suf, he, _⟩
      exact absurd he (by cases pre <;> simp)
  | cons p rest ih =>
    intro acc hall
    obtain ⟨hconn, htime⟩ := hall p (List.mem_cons_self p rest)
    have hallrest : ∀ x ∈ rest, x.connState = .connected ∧
        x.now - startedAt < timeoutMs :=
      fun x hx => hall x (List.mem_cons_of_mem p hx)
    have hng : ¬ timeoutMs ≤ p.now - startedAt := not_le.mpr htime
    have hnc : ¬ p.connState ≠ ConnectionState.connected := by simp [hconn]
    cases hsig : (drainSignals acc p).lastSignalAt with
    | none =>
      have hlhs : waitLoop startedAt timeoutMs a0 (p :: rest) acc =
          waitLoop startedAt timeoutMs a0 rest (drainSignals acc p) := by
        simp only [waitLoop, if_neg hng, if_neg hnc, hsig]
      rw [hlhs, ih (drainSignals acc p) hallrest]
      constructor
      · rintro ⟨pre, q, suf, he, hcheck⟩
        exact ⟨p :: pre, q, suf, by rw [List.cons_append, he],
          by simpa [drainFold] using hcheck⟩
      · rintro ⟨pre, q, suf, he, hcheck⟩
        match pre, he with
        | [], he =>
          have hq : q = p := by
            simpa using congrArg (fun l => l.headD p) he.symm
          subst hq
          rw [show drainFold acc [] = acc from rfl] at hcheck
          simp only [settleCheck, hsig] at hcheck
          exact absurd hcheck (by decide)
        | p0 :: pre2, he =>
          have hp0 : p0 = p ∧ rest = pre2 ++ q :: suf := by
            constructor
            · simpa using congrArg (fun l => l.headD p) he.symm
            · simpa using congrArg List.tail he
          refine ⟨pre2, q, suf, hp0.2, ?_⟩
          rw [show drainFold acc (p0 :: pre2) =
            drainFold (drainSignals acc p0) pre2 from rfl, hp0.1] at hcheck
          exact hcheck
    | some sig =>
      by_cases hcond : settleCond (p.now - sig)
          (normalizeGeneratedText (drainSignals acc p).textParts) = true
      · constructor
        · intro _
          refine ⟨[], p, rest, rfl, ?_⟩
          rw [show drainFold acc [] = acc from rfl, settleCheck, hsig]
          exact hcond
        · intro _
          simp only [waitLoop, if_neg hng, if_neg hnc, hsig, if_pos hcond]
      · have hlhs : waitLoop startedAt timeoutMs a0 (p :: rest) acc =
            waitLoop startedAt timeoutMs a0 rest (drainSignals acc p) := by
          simp only [waitLoop, if_neg hng, if_neg hnc, hsig, if_neg hcond]
        rw [hlhs, ih (drainSignals acc p) hallrest]
        constructor
        · rintro ⟨pre, q, suf, he, hcheck⟩
          exact ⟨p :: pre, q, suf, by rw [List.cons_append, he],
            by simpa [drainFold] using hcheck⟩
        · rintro ⟨pre, q, suf, he, hcheck⟩
          match pre, he with
          | [], he =>
            have hq : q = p := by
              simpa using congrArg (fun l => l.headD p) he.symm
            subst hq
            rw [show drainFold acc [] = acc from rfl] at hcheck
            rw [settleCheck, hsig] at hcheck
            exact absurd hcheck hcond
          | p0 :: pre2, he =>
            have hp0 : p0 = p ∧ rest = pre2 ++ q :: suf := by
              constructor
              · simpa using congrArg (fun l => l.headD p) he.symm
              · simpa using congrArg List.tail he
            refine ⟨pre2, q, suf, hp0.2, ?_⟩
            rw [show drainFold acc (p0 :: pre2) =
              drainFold (drainSignals acc p0) pre2 from rfl, hp0.1] at hcheck
            exact hcheck

/-- Claim C7, confirmed.  While the connection stays `connected` and the
timeout has not elapsed, the polling loop of `waitForCoachOutput` resolves
through its settle return exactly when some iteration satisfies the two-tier
settle rule after draining its signals: a signal has been observed and EITHER
the quiet duration has reached the hard settle threshold, OR it has reached
the shorter soft settle threshold AND the accumulated normalized text is
non-empty and ends on a sentence boundary (terminal punctuation optionally
followed by a closing quote/bracket).  The threshold comparisons are
inclusive (`>=`), as in the source.  In particular (second conjunct) a turn
receiving one fragment `"Hello."` and then a quiet poll 1100ms later — past
the 900ms soft threshold, under the 2200ms hard threshold — settles with that
exact text and the channel marked used. -/
theorem turn_settles_iff :
    (∀ (startedAt timeoutMs : ℤ) (a0 : ℕ) (polls : List Poll),
      (∀ p ∈ polls, p.connState = .connected ∧
        p.now - startedAt < timeoutMs) →
      ((waitForCoachOutput startedAt timeoutMs a0 polls).2 = .settled ↔
        ∃ pre q suf, polls = pre ++ q :: suf ∧
          settleCheck (drainFold ⟨none, a0, []⟩ pre) q = true)) ∧
    waitForCoachOutput 0 10000 0
      [⟨100, .connected, [("Hello.")], 0⟩, ⟨1200, .connected, [], 0⟩] =
      (⟨some ("Hello."), true⟩, .settled) := by
  constructor
  · intro startedAt timeoutMs a0 polls hall
    exact waitLoop_settled_iff startedAt timeoutMs a0 polls _ hall
  · decide

/-- Witness for `turn_settles_iff`: the scenario polls settle, witnessed by
the first conjunct applied at the scenario's concrete inputs with the quiet
second poll as the settling iteration. -/
theorem turn_settles_iff_witness :
    (waitForCoachOutput 0 10000 0
      [⟨100, .connected, [("Hello.")], 0⟩,
        ⟨1200, .connected, [], 0⟩]).2 = ResolveKind.settled :=
  (turn_settles_iff.1 0 10000 0
      [⟨100, .connected, [("Hello.")], 0⟩, ⟨1200, .connected, [], 0⟩]
      (by decide)).mpr
    ⟨[⟨100, .connected, [("Hello.")], 0⟩], ⟨1200, .connected, [], 0⟩, [],
      by decide, by decide⟩

theorem waitLoop_no_signal (startedAt timeoutMs : ℤ) (a0 : ℕ) :
    ∀ polls : List Poll,
      (∀ p ∈ polls, p.connState = .connected ∧
        (p.newTexts.filter fun s => !(s == "")) = [] ∧
        p.audioCount = a0) →
      waitLoop startedAt timeoutMs a0 polls ⟨none, a0, []⟩ =
        (⟨none, false⟩, .timedOut) := by
  intro polls
  induction polls with
  | nil =>
    intro _
    simp [waitLoop, optText, show normalizeGeneratedText [] = "" from rfl,
      lt_self_iff_false]
  | cons p rest ih =>
    intro hall
    obtain ⟨hconn, htext, haudio⟩ := hall p (List.mem_cons_self p rest)
    have hacc : drainSignals ⟨none, a0, []⟩ p = ⟨none, a0, []⟩ := by
      simp [drainSignals, htext, haudio]
    by_cases hg : timeoutMs ≤ p.now - startedAt
    · simp [waitLoop, if_pos hg, haudio, optText,
        show normalizeGeneratedText [] = "" from rfl, lt_self_iff_false]
    · have hnc : ¬ p.connState ≠ ConnectionState.connected := by simp [hconn]
      have hrec : waitLoop startedAt timeoutMs a0 (p :: rest) ⟨none, a0, []⟩ =
          waitLoop startedAt timeoutMs a0 rest ⟨none, a0, []⟩ := by
        simp only [waitLoop, if_neg hg, if_neg hnc, hacc]
      rw [hrec]
      exact ih fun x hx => hall x (List.mem_cons_of_mem p hx)

/-- Claim C8, confirmed.  A turn during which no signal of any kind arrives —
every poll drains no non-empty text fragment and sees the audio counter still
at its starting value — while the connection stays `connected` resolves with
`text = null` and the channel marked unused (`audioSeen = false`), through
the timeout return.  The loop is a total function into `TurnResult`, so no
exception crosses the boundary. -/
theorem no_signal_turn_times_out (startedAt timeoutMs : ℤ) (a0 : ℕ)
    (polls : List Poll)
    (hall : ∀ p ∈ polls, p.connState = .connected ∧
      (p.newTexts.filter fun s => !(s == "")) = [] ∧
      p.audioCount = a0) :
    waitForCoachOutput startedAt timeoutMs a0 polls =
      (⟨none, false⟩, .timedOut) :=
  waitLoop_no_signal startedAt timeoutMs a0 polls hall

/-- Witness for `no_signal_turn_times_out` on a concrete signal-free poll
sequence that runs past the timeout. -/
theorem no_signal_turn_times_out_witness :
    waitForCoachOutput 0 500 3
      [⟨100, .connected, [], 3⟩, ⟨300, .connected, [("")], 3⟩,
        ⟨900, .connected, [], 3⟩] = (⟨none, false⟩, .timedOut) :=
  no_signal_turn_times_out 0 500 3
    [⟨100, .connected, [], 3⟩, ⟨300, .connected, [("")], 3⟩,
      ⟨900, .connected, [], 3⟩] (by decide)

theorem wsCanon_cons_nonws {X : List Char} {c : Char} (hw : ¬ isJsWs c = true)
    (h : wsCanon X) : wsCanon (c :: X) := by
  intro x hx hwx
  rcases List.mem_cons.mp hx with hxc | hxm
  · subst hxc
    exact absurd hwx hw
  · exact h x hxm hwx

theorem chain'_cons_nonws {X : List Char} {c : Char} (hw : ¬ isJsWs c = true)
    (hX : List.Chain' wsRel X) : List.Chain' wsRel (c :: X) :=
  List.chain'_cons'.mpr ⟨fun _ _ hcw => absurd hcw hw, hX⟩

theorem collapseWsAux_spec : ∀ (l : List Char) (b : Bool),
    wsCanon (collapseWsAux b l) ∧ List.Chain' wsRel2 (collapseWsAux b l) ∧
    (b = true → headNonWs (collapseWsAux b l)) := by
  intro l
  induction l with
  | nil =>
    intro b
    refine ⟨?_, ?_, ?_⟩ <;> simp [collapseWsAux, wsCanon, headNonWs]
  | cons c rest ih =>
    intro b
    by_cases hw : isJsWs c = true
    · cases b with
      | true =>
        have heq : collapseWsAux true (c :: rest) = collapseWsAux true rest := by
          simp [collapseWsAux, hw]
        rw [heq]
        exact ih true
      | false =>
        have heq : collapseWsAux false (c :: rest) =
            ' ' :: collapseWsAux true rest := by
          simp [collapseWsAux, hw]
        rw [heq]
        obtain ⟨ih1, ih2, ih3⟩ := ih true
        refine ⟨?_, ?_, ?_⟩
        · intro x hx hwx
          rcases List.mem_cons.mp hx with hxc | hxm
          · exact hxc
          · exact ih1 x hxm hwx
        · refine List.chain'_cons'.mpr ⟨?_, ih2⟩
          intro y hy _
          exact ih3 rfl y hy
        · intro hb
          exact absurd hb (by decide)
    · have heq : collapseWsAux b (c :: rest) = c :: collapseWsAux false rest := by
        cases b <;> simp [collapseWsAux, hw]
      rw [heq]
      obtain ⟨ih1, ih2, _⟩ := ih false
      refine ⟨wsCanon_cons_nonws hw ih1, ?_, ?_⟩
      · refine List.chain'_cons'.mpr ⟨?_, ih2⟩
        intro y _ hcw
        exact absurd hcw hw
      · intro _ x hx
        have hxc : c = x := by simpa using hx
        subst hxc
        simpa using hw

theorem stripWsPunctAux_spec : ∀ (l : List Char),
    wsCanon l → List.Chain' wsRel2 l →
    (wsCanon (stripWsPunctAux [] l) ∧
      List.Chain' wsRel (stripWsPunctAux [] l)) ∧
    (headNonWs l → wsCanon (stripWsPunctAux [' '] l) ∧
      List.Chain' wsRel (stripWsPunctAux [' '] l)) := by
  intro l
  induction l with
  | nil =>
    intro _ _
    refine ⟨⟨?_, ?_⟩, fun _ => ⟨?_, ?_⟩⟩
    · intro x hx
      simp [stripWsPunctAux] at hx
    · trivial
    · intro x hx _
      have hsx : x = ' ' := by simpa [stripWsPunctAux] using hx
      exact hsx
    · exact List.chain'_singleton ' '
  | cons c rest ih =>
    intro h1 h2
    have h1r : wsCanon rest := fun x hx => h1 x (List.mem_cons_of_mem c hx)
    obtain ⟨ihA, ihB⟩ := ih h1r h2.tail
    by_cases hw : isJsWs c = true
    · have hc : c = ' ' := h1 c (List.mem_cons_self c rest) hw
      subst hc
      have hhead : headNonWs rest := fun y hy =>
        (List.chain'_cons'.mp h2).1 y hy hw
      constructor
      · have heq : stripWsPunctAux [] (' ' :: rest) =
            stripWsPunctAux [' '] rest := by
          simp [stripWsPunctAux, hw]
        rw [heq]
        exact ihB hhead
      · intro hh
        have hws := hh ' ' rfl
        exact absurd hw (by simp [hws])
    · by_cases hp : isNormPunct c = true
      · have heq0 : stripWsPunctAux [] (c :: rest) =
            c :: stripWsPunctAux [] rest := by
          simp [stripWsPunctAux, hw, hp]
        have heq1 : stripWsPunctAux [' '] (c :: rest) =
            c :: stripWsPunctAux [] rest := by
          simp [stripWsPunctAux, hw, hp]
        refine ⟨?_, fun _ => ?_⟩
        · rw [heq0]
          exact ⟨wsCanon_cons_nonws hw ihA.1, chain'_cons_nonws hw ihA.2⟩
        · rw [heq1]
          exact ⟨wsCanon_cons_nonws hw ihA.1, chain'_cons_nonws hw ihA.2⟩
      · have heq0 : stripWsPunctAux [] (c :: rest) =
            c :: stripWsPunctAux [] rest := by
          simp [stripWsPunctAux, hw, hp]
        have heq1 : stripWsPunctAux [' '] (c :: rest) =
            ' ' :: c :: stripWsPunctAux [] rest := by
          simp [stripWsPunctAux, hw, hp]
        refine ⟨?_, fun _ => ?_⟩
        · rw [heq0]
          exact ⟨wsCanon_cons_nonws hw ihA.1, chain'_cons_nonws hw ihA.2⟩
        · rw [heq1]
          refine ⟨?_, ?_⟩
          · intro x hx hwx
            rcases List.mem_cons.mp hx with hxs | hxm
            · exact hxs
            · exact wsCanon_cons_nonws hw ihA.1 x hxm hwx
          · refine List.chain'_cons'.mpr ⟨?_, chain'_cons_nonws hw ihA.2⟩
            intro y hy _
            have hyc : c = y := by simpa using hy
            subst hyc
            exact ⟨by simpa using hw, by simpa using hp⟩

theorem stripWsPunctAux_id : ∀ (l : List Char), List.Chain' wsRel l →
    stripWsPunctAux [] l = l ∧
    (∀ w, isJsWs w = true →
      (∀ c ∈ l.head?, isJsWs c = false ∧ isNormPunct c = false) →
      stripWsPunctAux [w] l = w :: l) := by
  intro l
  induction l with
  | nil =>
    intro _
    exact ⟨rfl, fun w _ _ => rfl⟩
  | cons c rest ih =>
    intro h
    obtain ⟨ih1, ih2⟩ := ih h.tail
    have hrel := (List.chain'_cons'.mp h).1
    by_cases hw : isJsWs c = true
    · constructor
      · have heq : stripWsPunctAux [] (c :: rest) =
            stripWsPunctAux [c] rest := by
          simp [stripWsPunctAux, hw]
        rw [heq, ih2 c hw (fun y hy => hrel y hy hw)]
      · intro w _ hcond
        exact absurd hw (by simp [(hcond c rfl).1])
    · by_cases hp : isNormPunct c = true
      · constructor
        · have heq : stripWsPunctAux [] (c :: rest) =
              c :: stripWsPunctAux [] rest := by
            simp [stripWsPunctAux, hw, hp]
          rw [heq, ih1]
        · intro w _ hcond
          exact absurd hp (by simp [(hcond c rfl).2])
      · constructor
        · have heq : stripWsPunctAux [] (c :: rest) =
              c :: stripWsPunctAux [] rest := by
            simp [stripWsPunctAux, hw, hp]
          rw [heq, ih1]
        · intro w hwws _
          have heq : stripWsPunctAux [w] (c :: rest) =
              w :: c :: stripWsPunctAux [] rest := by
            simp [stripWsPunctAux, hw, hp]
          rw [heq, ih1]

theorem collapseWsAux_id : ∀ (l : List Char), wsCanon l →
    List.Chain' wsRel2 l →
    collapseWsAux false l = l ∧ (headNonWs l → collapseWsAux true l = l) := by
  intro l
  induction l with
  | nil => intro _ _; exact ⟨rfl, fun _ => rfl⟩
  | cons c rest ih =>
    intro h1 h2
    have h1r : wsCanon rest := fun x hx => h1 x (List.mem_cons_of_mem c hx)
    obtain ⟨ih1, ih2⟩ := ih h1r h2.tail
    by_cases hw : isJsWs c = true
    · have hc : c = ' ' := h1 c (List.mem_cons_self c rest) hw
      subst hc
      have hhead : headNonWs rest := fun y hy =>
        (List.chain'_cons'.mp h2).1 y hy hw
      constructor
      · have heq : collapseWsAux false (' ' :: rest) =
            ' ' :: collapseWsAux true rest := by
          simp [collapseWsAux, hw]
        rw [heq, ih2 hhead]
      · intro hh
        have hws := hh ' ' rfl
        exact absurd hw (by simp [hws])
    · constructor
      · have heq : collapseWsAux false (c :: rest) =
            c :: collapseWsAux false rest := by
          simp [collapseWsAux, hw]
        rw [heq, ih1]
      · intro _
        have heq : collapseWsAux true (c :: rest) =
            c :: collapseWsAux false rest := by
          simp [collapseWsAux, hw]
        rw [heq, ih1]

theorem chain'_dropWhile {α : Type} {r : α → α → Prop} (p : α → Bool)
    {l : List α} (h : List.Chain' r l) : List.Chain' r (l.dropWhile p) := by
  have h2 : List.Chain' r (l.takeWhile p ++ l.dropWhile p) := by
    rw [List.takeWhile_append_dropWhile]
    exact h
  exact (List.chain'_append.mp h2).2.1

theorem mem_of_mem_dropWhile {α : Type} (p : α → Bool) {l : List α} {x : α}
    (hx : x ∈ l.dropWhile p) : x ∈ l :=
  (List.dropWhile_suffix p).sublist.subset hx

theorem head_dropWhile_false {α : Type} (p : α → Bool) :
    ∀ (l : List α), ∀ c ∈ (l.dropWhile p).head?, p c = false := by
  intro l
  induction l with
  | nil => intro c hc; simp at hc
  | cons a t ih =>
    intro c hc
    by_cases hpa : p a = true
    · rw [List.dropWhile_cons_of_pos hpa] at hc
      exact ih c hc
    · rw [List.dropWhile_cons_of_neg hpa] at hc
      have hca : a = c := by simpa using hc
      subst hca
      simpa using hpa

theorem dropWhile_of_head_false {α : Type} (p : α → Bool) {l : List α}
    (h : ∀ c ∈ l.head?, p c = false) : l.dropWhile p = l := by
  cases l with
  | nil => rfl
  | cons a t =>
    rw [List.dropWhile_cons_of_neg]
    simp [h a rfl]

theorem trimChars_spec {l : List Char} (h1 : wsCanon l)
    (h2 : List.Chain' wsRel l) :
    wsCanon (trimChars l) ∧ List.Chain' wsRel (trimChars l) ∧
    headNonWs (trimChars l) ∧
    (∀ c ∈ (trimChars l).getLast?, isJsWs c = false) := by
  refine ⟨?_, ?_, ?_, ?_⟩
  · intro x hx
    apply h1 x
    have hx1 : x ∈ (l.dropWhile isJsWs).reverse.dropWhile isJsWs :=
      List.mem_reverse.mp hx
    have hx2 : x ∈ (l.dropWhile isJsWs).reverse :=
      mem_of_mem_dropWhile _ hx1
    exact mem_of_mem_dropWhile _ (List.mem_reverse.mp hx2)
  · have c1 : List.Chain' wsRel (l.dropWhile isJsWs) := chain'_dropWhile _ h2
    have c2 : List.Chain' (flip wsRel) (l.dropWhile isJsWs).reverse :=
      List.chain'_reverse.mpr c1
    have c3 : List.Chain' (flip wsRel)
        ((l.dropWhile isJsWs).reverse.dropWhile isJsWs) :=
      chain'_dropWhile _ c2
    exact List.chain'_reverse.mpr c3
  · intro x hx
    have hdecomp : ((l.dropWhile isJsWs).reverse.dropWhile isJsWs).reverse ++
        (List.takeWhile isJsWs (l.dropWhile isJsWs).reverse).reverse =
        l.dropWhile isJsWs := by
      rw [← List.reverse_append, List.takeWhile_append_dropWhile,
        List.reverse_reverse]
    rcases hYr : ((l.dropWhile isJsWs).reverse.dropWhile isJsWs).reverse with
      _ | ⟨a, t⟩
    · rw [show trimChars l =
        ((l.dropWhile isJsWs).reverse.dropWhile isJsWs).reverse from rfl,
        hYr] at hx
      simp at hx
    · rw [show trimChars l =
        ((l.dropWhile isJsWs).reverse.dropWhile isJsWs).reverse from rfl,
        hYr] at hx
      have hxa : a = x := by simpa using hx
      subst hxa
      rw [hYr] at hdecomp
      have hhd : (l.dropWhile isJsWs).head? = some a := by
        rw [← hdecomp]
        rfl
      exact head_dropWhile_false isJsWs l a (by rw [hhd]; rfl)
  · intro x hx
    rw [show trimChars l =
      ((l.dropWhile isJsWs).reverse.dropWhile isJsWs).reverse from rfl,
      List.getLast?_reverse] at hx
    exact head_dropWhile_false isJsWs (l.dropWhile isJsWs).reverse x hx

theorem trimChars_id {l : List Char} (h1 : headNonWs l)
    (h2 : ∀ c ∈ l.getLast?, isJsWs c = false) : trimChars l = l := by
  unfold trimChars
  rw [dropWhile_of_head_false isJsWs (fun c hc => h1 c hc)]
  rw [dropWhile_of_head_false isJsWs
    (fun c hc => h2 c (by rwa [List.head?_reverse] at hc))]
  exact List.reverse_reverse l

theorem normalize_core (l0 : List Char) :
    trimChars (stripWsPunct (collapseWs
      (trimChars (stripWsPunct (collapseWs l0))))) =
    trimChars (stripWsPunct (collapseWs l0)) := by
  obtain ⟨c1, c2, _⟩ := collapseWsAux_spec l0 false
  obtain ⟨⟨s1, s2⟩, _⟩ := stripWsPunctAux_spec (collapseWs l0) c1 c2
  obtain ⟨t1, t2, t3, t4⟩ := trimChars_spec s1 s2
  have ht2 : List.Chain' wsRel2
      (trimChars (stripWsPunct (collapseWs l0))) :=
    t2.imp fun a b h hab => (h hab).1
  rw [show collapseWs (trimChars (stripWsPunct (collapseWs l0))) =
      trimChars (stripWsPunct (collapseWs l0)) from
    (collapseWsAux_id _ t1 ht2).1]
  rw [show stripWsPunct (trimChars (stripWsPunct (collapseWs l0))) =
      trimChars (stripWsPunct (collapseWs l0)) from
    (stripWsPunctAux_id _ t2).1]
  exact trimChars_id t3 t4

/-- Claim C10, confirmed.  The turn coordinator's text normalization — join
the fragments, collapse whitespace runs to one space, delete whitespace
before `[.,!?;:]`, trim — is idempotent: applying it to its own output (as a
single fragment) returns the same string.  The output is in normal form (all
whitespace is single interior spaces never preceding punctuation), and each
of the three stages fixes normal forms. -/
theorem normalizeGeneratedText_idempotent (parts : List String) :
    normalizeGeneratedText [normalizeGeneratedText parts] =
      normalizeGeneratedText parts := by
  show String.mk (trimChars (stripWsPunct (collapseWs
      (String.join [normalizeGeneratedText parts]).toList))) = _
  rw [show String.join [normalizeGeneratedText parts] =
    normalizeGeneratedText parts from rfl]
  show String.mk (trimChars (stripWsPunct (collapseWs
      (trimChars (stripWsPunct (collapseWs (String.join parts).toList)))))) = _
  rw [normalize_core]
  rfl
